import Mathlib

/-!
Verification development for the core of the fbxcel FBX 7.4 binary reader.

The development shallowly embeds:
* the low-level attribute value enums and their accessors
  (src/low/v7400/attribute/value.rs, src/pull_parser/v7400/attribute/direct.rs);
* the parser-source skipping contract (src/pull_parser/reader.rs);
* the attribute visitor dispatch
  (src/pull_parser/binary/v7400/attribute/visitor.rs);
* the DOM node tree and path lookup (src/dom/v7400/node.rs);
* the DOM document loader (src/dom/v7400/document/loader.rs).

Components of the crate that are referenced by the sources above but are not
part of the provided subset (the `Core` arena, `ObjectMeta::from_attributes`,
`SceneNodeData::load`, `Connection::load_from_attributes`, `ObjectsGraph`,
and the boolean attribute decoder) are modelled from the specification; each
such definition carries a doc comment starting with `Modelled from the spec`.

Rust `HashMap`s are modelled as association lists with insert-only-if-vacant
semantics, `panic!`/`assert!`/`expect` as a distinguished `trap` outcome, and
fallible code as `Except`.
-/

namespace Fbxcel

deriving instance DecidableEq for Except

/-- Root `Bool` under a name that cannot be shadowed by enum constructors. -/
abbrev BoolT := Bool

/-! ## Attribute types and values -/

/-- Modelled from the spec: the companion `AttributeType` enum that lists the
thirteen attribute type tags without payload, used for type-mismatch
reporting (spec section 3; the defining file is not in the provided subset,
the tags are those matched by `type_()` in value.rs). -/
inductive AttributeType where
  | Bool | I16 | I32 | I64 | F32 | F64
  | ArrBool | ArrI32 | ArrI64 | ArrF32 | ArrF64
  | String | Binary
deriving DecidableEq, Repr

/-- Node attribute value (src/low/v7400/attribute/value.rs, `AttributeValue`).
Floating point payloads are carried as opaque bit patterns (`Nat`) and string
payloads as byte lists; no claim depends on float arithmetic or UTF-8. -/
inductive AttributeValue where
  | Bool (v : Bool)
  | I16 (v : Int)
  | I32 (v : Int)
  | I64 (v : Int)
  | F32 (bits : Nat)
  | F64 (bits : Nat)
  | ArrBool (v : List Bool)
  | ArrI32 (v : List Int)
  | ArrI64 (v : List Int)
  | ArrF32 (bits : List Nat)
  | ArrF64 (bits : List Nat)
  | String (bytes : List Nat)
  | Binary (bytes : List Nat)
deriving DecidableEq, Repr

/-- `AttributeValue::type_` (value.rs). -/
def AttributeValue.type_ : AttributeValue → AttributeType
  | .Bool _ => .Bool
  | .I16 _ => .I16
  | .I32 _ => .I32
  | .I64 _ => .I64
  | .F32 _ => .F32
  | .F64 _ => .F64
  | .ArrBool _ => .ArrBool
  | .ArrI32 _ => .ArrI32
  | .ArrI64 _ => .ArrI64
  | .ArrF32 _ => .ArrF32
  | .ArrF64 _ => .ArrF64
  | .String _ => .String
  | .Binary _ => .Binary

/-- `AttributeValue::get_bool` (value.rs, `impl_val_getter!`). -/
def AttributeValue.get_bool : AttributeValue → Option BoolT
  | .Bool v => some v
  | _ => none

/-- `AttributeValue::get_bool_or_type` (value.rs). -/
def AttributeValue.get_bool_or_type : AttributeValue → Except AttributeType BoolT
  | .Bool v => .ok v
  | a => .error a.type_

/-- `AttributeValue::get_i16` (value.rs). -/
def AttributeValue.get_i16 : AttributeValue → Option Int
  | .I16 v => some v
  | _ => none

/-- `AttributeValue::get_i16_or_type` (value.rs). -/
def AttributeValue.get_i16_or_type : AttributeValue → Except AttributeType Int
  | .I16 v => .ok v
  | a => .error a.type_

/-- `AttributeValue::get_i32` (value.rs). -/
def AttributeValue.get_i32 : AttributeValue → Option Int
  | .I32 v => some v
  | _ => none

/-- `AttributeValue::get_i32_or_type` (value.rs). -/
def AttributeValue.get_i32_or_type : AttributeValue → Except AttributeType Int
  | .I32 v => .ok v
  | a => .error a.type_

/-- `AttributeValue::get_i64` (value.rs). -/
def AttributeValue.get_i64 : AttributeValue → Option Int
  | .I64 v => some v
  | _ => none

/-- `AttributeValue::get_i64_or_type` (value.rs). -/
def AttributeValue.get_i64_or_type : AttributeValue → Except AttributeType Int
  | .I64 v => .ok v
  | a => .error a.type_

/-- `AttributeValue::get_f32` (value.rs). -/
def AttributeValue.get_f32 : AttributeValue → Option Nat
  | .F32 v => some v
  | _ => none

/-- `AttributeValue::get_f32_or_type` (value.rs). -/
def AttributeValue.get_f32_or_type : AttributeValue → Except AttributeType Nat
  | .F32 v => .ok v
  | a => .error a.type_

/-- `AttributeValue::get_f64` (value.rs). -/
def AttributeValue.get_f64 : AttributeValue → Option Nat
  | .F64 v => some v
  | _ => none

/-- `AttributeValue::get_f64_or_type` (value.rs). -/
def AttributeValue.get_f64_or_type : AttributeValue → Except AttributeType Nat
  | .F64 v => .ok v
  | a => .error a.type_

/-- `AttributeValue::get_arr_bool` (value.rs, `impl_ref_getter!`). -/
def AttributeValue.get_arr_bool : AttributeValue → Option (List BoolT)
  | .ArrBool v => some v
  | _ => none

/-- `AttributeValue::get_arr_bool_or_type` (value.rs). -/
def AttributeValue.get_arr_bool_or_type : AttributeValue → Except AttributeType (List BoolT)
  | .ArrBool v => .ok v
  | a => .error a.type_

/-- `AttributeValue::get_arr_i32` (value.rs). -/
def AttributeValue.get_arr_i32 : AttributeValue → Option (List Int)
  | .ArrI32 v => some v
  | _ => none

/-- `AttributeValue::get_arr_i32_or_type` (value.rs). -/
def AttributeValue.get_arr_i32_or_type : AttributeValue → Except AttributeType (List Int)
  | .ArrI32 v => .ok v
  | a => .error a.type_

/-- `AttributeValue::get_arr_i64` (value.rs). -/
def AttributeValue.get_arr_i64 : AttributeValue → Option (List Int)
  | .ArrI64 v => some v
  | _ => none

/-- `AttributeValue::get_arr_i64_or_type` (value.rs). -/
def AttributeValue.get_arr_i64_or_type : AttributeValue → Except AttributeType (List Int)
  | .ArrI64 v => .ok v
  | a => .error a.type_

/-- `AttributeValue::get_arr_f32` (value.rs). -/
def AttributeValue.get_arr_f32 : AttributeValue → Option (List Nat)
  | .ArrF32 v => some v
  | _ => none

/-- `AttributeValue::get_arr_f32_or_type` (value.rs). -/
def AttributeValue.get_arr_f32_or_type : AttributeValue → Except AttributeType (List Nat)
  | .ArrF32 v => .ok v
  | a => .error a.type_

/-- `AttributeValue::get_arr_f64` (value.rs). -/
def AttributeValue.get_arr_f64 : AttributeValue → Option (List Nat)
  | .ArrF64 v => some v
  | _ => none

/-- `AttributeValue::get_arr_f64_or_type` (value.rs). -/
def AttributeValue.get_arr_f64_or_type : AttributeValue → Except AttributeType (List Nat)
  | .ArrF64 v => .ok v
  | a => .error a.type_

/-- `AttributeValue::get_string` (value.rs). -/
def AttributeValue.get_string : AttributeValue → Option (List Nat)
  | .String v => some v
  | _ => none

/-- `AttributeValue::get_string_or_type` (value.rs). -/
def AttributeValue.get_string_or_type : AttributeValue → Except AttributeType (List Nat)
  | .String v => .ok v
  | a => .error a.type_

/-- `AttributeValue::get_binary` (value.rs). -/
def AttributeValue.get_binary : AttributeValue → Option (List Nat)
  | .Binary v => some v
  | _ => none

/-- `AttributeValue::get_binary_or_type` (value.rs). -/
def AttributeValue.get_binary_or_type : AttributeValue → Except AttributeType (List Nat)
  | .Binary v => .ok v
  | a => .error a.type_

/-- Direct attribute value (src/pull_parser/v7400/attribute/direct.rs,
`DirectAttributeValue`): the same thirteen variants as `AttributeValue`. -/
inductive DirectAttributeValue where
  | Bool (v : Bool)
  | I16 (v : Int)
  | I32 (v : Int)
  | I64 (v : Int)
  | F32 (bits : Nat)
  | F64 (bits : Nat)
  | ArrBool (v : List Bool)
  | ArrI32 (v : List Int)
  | ArrI64 (v : List Int)
  | ArrF32 (bits : List Nat)
  | ArrF64 (bits : List Nat)
  | String (bytes : List Nat)
  | Binary (bytes : List Nat)
deriving DecidableEq, Repr

/-- `DirectAttributeValue::type_` (direct.rs). -/
def DirectAttributeValue.type_ : DirectAttributeValue → AttributeType
  | .Bool _ => .Bool
  | .I16 _ => .I16
  | .I32 _ => .I32
  | .I64 _ => .I64
  | .F32 _ => .F32
  | .F64 _ => .F64
  | .ArrBool _ => .ArrBool
  | .ArrI32 _ => .ArrI32
  | .ArrI64 _ => .ArrI64
  | .ArrF32 _ => .ArrF32
  | .ArrF64 _ => .ArrF64
  | .String _ => .String
  | .Binary _ => .Binary

/-- `DirectAttributeValue::get_bool` (direct.rs). -/
def DirectAttributeValue.get_bool : DirectAttributeValue → Option BoolT
  | .Bool v => some v
  | _ => none

/-- `DirectAttributeValue::get_bool_or_type` (direct.rs). -/
def DirectAttributeValue.get_bool_or_type : DirectAttributeValue → Except AttributeType BoolT
  | .Bool v => .ok v
  | a => .error a.type_

/-- `DirectAttributeValue::get_i16` (direct.rs). -/
def DirectAttributeValue.get_i16 : DirectAttributeValue → Option Int
  | .I16 v => some v
  | _ => none

/-- `DirectAttributeValue::get_i16_or_type` (direct.rs). -/
def DirectAttributeValue.get_i16_or_type : DirectAttributeValue → Except AttributeType Int
  | .I16 v => .ok v
  | a => .error a.type_

/-- `DirectAttributeValue::get_i32` (direct.rs). -/
def DirectAttributeValue.get_i32 : DirectAttributeValue → Option Int
  | .I32 v => some v
  | _ => none

/-- `DirectAttributeValue::get_i32_or_type` (direct.rs). -/
def DirectAttributeValue.get_i32_or_type : DirectAttributeValue → Except AttributeType Int
  | .I32 v => .ok v
  | a => .error a.type_

/-- `DirectAttributeValue::get_i64` (direct.rs). -/
def DirectAttributeValue.get_i64 : DirectAttributeValue → Option Int
  | .I64 v => some v
  | _ => none

/-- `DirectAttributeValue::get_i64_or_type` (direct.rs). -/
def DirectAttributeValue.get_i64_or_type : DirectAttributeValue → Except AttributeType Int
  | .I64 v => .ok v
  | a => .error a.type_

/-- `DirectAttributeValue::get_f32` (direct.rs). -/
def DirectAttributeValue.get_f32 : DirectAttributeValue → Option Nat
  | .F32 v => some v
  | _ => none

/-- `DirectAttributeValue::get_f32_or_type` (direct.rs). -/
def DirectAttributeValue.get_f32_or_type : DirectAttributeValue → Except AttributeType Nat
  | .F32 v => .ok v
  | a => .error a.type_

/-- `DirectAttributeValue::get_f64` (direct.rs). -/
def DirectAttributeValue.get_f64 : DirectAttributeValue → Option Nat
  | .F64 v => some v
  | _ => none

/-- `DirectAttributeValue::get_f64_or_type` (direct.rs). -/
def DirectAttributeValue.get_f64_or_type : DirectAttributeValue → Except AttributeType Nat
  | .F64 v => .ok v
  | a => .error a.type_

/-- `DirectAttributeValue::get_arr_bool` (direct.rs). -/
def DirectAttributeValue.get_arr_bool : DirectAttributeValue → Option (List BoolT)
  | .ArrBool v => some v
  | _ => none

/-- `DirectAttributeValue::get_arr_bool_or_type` (direct.rs). -/
def DirectAttributeValue.get_arr_bool_or_type :
    DirectAttributeValue → Except AttributeType (List BoolT)
  | .ArrBool v => .ok v
  | a => .error a.type_

/-- `DirectAttributeValue::get_arr_i32` (direct.rs). -/
def DirectAttributeValue.get_arr_i32 : DirectAttributeValue → Option (List Int)
  | .ArrI32 v => some v
  | _ => none

/-- `DirectAttributeValue::get_arr_i32_or_type` (direct.rs). -/
def DirectAttributeValue.get_arr_i32_or_type :
    DirectAttributeValue → Except AttributeType (List Int)
  | .ArrI32 v => .ok v
  | a => .error a.type_

/-- `DirectAttributeValue::get_arr_i64` (direct.rs). -/
def DirectAttributeValue.get_arr_i64 : DirectAttributeValue → Option (List Int)
  | .ArrI64 v => some v
  | _ => none

/-- `DirectAttributeValue::get_arr_i64_or_type` (direct.rs). -/
def DirectAttributeValue.get_arr_i64_or_type :
    DirectAttributeValue → Except AttributeType (List Int)
  | .ArrI64 v => .ok v
  | a => .error a.type_

/-- `DirectAttributeValue::get_arr_f32` (direct.rs). -/
def DirectAttributeValue.get_arr_f32 : DirectAttributeValue → Option (List Nat)
  | .ArrF32 v => some v
  | _ => none

/-- `DirectAttributeValue::get_arr_f32_or_type` (direct.rs). -/
def DirectAttributeValue.get_arr_f32_or_type :
    DirectAttributeValue → Except AttributeType (List Nat)
  | .ArrF32 v => .ok v
  | a => .error a.type_

/-- `DirectAttributeValue::get_arr_f64` (direct.rs). -/
def DirectAttributeValue.get_arr_f64 : DirectAttributeValue → Option (List Nat)
  | .ArrF64 v => some v
  | _ => none

/-- `DirectAttributeValue::get_arr_f64_or_type` (direct.rs). -/
def DirectAttributeValue.get_arr_f64_or_type :
    DirectAttributeValue → Except AttributeType (List Nat)
  | .ArrF64 v => .ok v
  | a => .error a.type_

/-- `DirectAttributeValue::get_string` (direct.rs). -/
def DirectAttributeValue.get_string : DirectAttributeValue → Option (List Nat)
  | .String v => some v
  | _ => none

/-- `DirectAttributeValue::get_string_or_type` (direct.rs). -/
def DirectAttributeValue.get_string_or_type :
    DirectAttributeValue → Except AttributeType (List Nat)
  | .String v => .ok v
  | a => .error a.type_

/-- `DirectAttributeValue::get_binary` (direct.rs). -/
def DirectAttributeValue.get_binary : DirectAttributeValue → Option (List Nat)
  | .Binary v => some v
  | _ => none

/-- `DirectAttributeValue::get_binary_or_type` (direct.rs). -/
def DirectAttributeValue.get_binary_or_type :
    DirectAttributeValue → Except AttributeType (List Nat)
  | .Binary v => .ok v
  | a => .error a.type_

/-- Variant-wise translation between the two identical enums, witnessing that
they have the same variants (claim C10). -/
def toDirect : AttributeValue → DirectAttributeValue
  | .Bool v => .Bool v
  | .I16 v => .I16 v
  | .I32 v => .I32 v
  | .I64 v => .I64 v
  | .F32 v => .F32 v
  | .F64 v => .F64 v
  | .ArrBool v => .ArrBool v
  | .ArrI32 v => .ArrI32 v
  | .ArrI64 v => .ArrI64 v
  | .ArrF32 v => .ArrF32 v
  | .ArrF64 v => .ArrF64 v
  | .String v => .String v
  | .Binary v => .Binary v

/-! ## Parser source skipping (src/pull_parser/reader.rs) -/

/-- A byte stream with a read position, modelling a `ParserSource` over a
finite stream of `len` bytes: `pos` is the offset of the next byte to be
read. -/
structure StreamSource where
  pos : Nat
  len : Nat
deriving DecidableEq, Repr

/-- `ParserSource::position` (reader.rs). -/
def StreamSource.position (s : StreamSource) : Nat := s.pos

/-- `ParserSource::skip_distance` default implementation (reader.rs): read
and discard up to `distance` bytes (`io::copy` of a `take(distance)` reads
until the limit or end of stream). -/
def StreamSource.skip_distance (s : StreamSource) (distance : Nat) : StreamSource :=
  { s with pos := s.pos + min distance (s.len - s.pos) }

/-- `ParserSource::skip_to` default implementation (reader.rs):
`pos.checked_sub(self.position()).expect("Attempt to skip backward")`,
then `skip_distance`.  The `expect` on a failed checked subtraction is the
panic; it is modelled as the `Except.error` branch. -/
def StreamSource.skip_to (s : StreamSource) (pos : Nat) : Except String StreamSource :=
  if pos < s.position then .error "Attempt to skip backward"
  else .ok (s.skip_distance (pos - s.position))

/-! ## Attribute visitors (src/pull_parser/binary/v7400/attribute/visitor.rs) -/

/-- Parser-side error for visitor dispatch:
`DataError::UnexpectedAttribute(expected, got)` plus an opaque per-element
read error used by the lazy array iterators. -/
inductive PError where
  | unexpectedAttribute (expected got : String)
  | elementError (code : Nat)
deriving DecidableEq, Repr

/-- The on-disk attribute shapes a visitor can be handed; each constructor
corresponds to one `visit_*` method of the `VisitAttribute` trait.  Array
shapes carry the lazy iterator of per-element results. -/
inductive AttrInput where
  | boolean (v : Bool)
  | i16 (v : Int)
  | i32 (v : Int)
  | i64 (v : Int)
  | f32 (bits : Nat)
  | f64 (bits : Nat)
  | seqBool (items : List (Except PError Bool))
  | seqI32 (items : List (Except PError Int))
  | seqI64 (items : List (Except PError Int))
  | seqF32 (items : List (Except PError Nat))
  | seqF64 (items : List (Except PError Nat))
deriving Repr

/-- The `got` component used by each default `visit_*` method of
`VisitAttribute` (visitor.rs lines 18-70). -/
def gotName : AttrInput → String
  | .boolean _ => "boolean"
  | .i16 _ => "i16"
  | .i32 _ => "i32"
  | .i64 _ => "i64"
  | .f32 _ => "f32"
  | .f64 _ => "f64"
  | .seqBool _ => "boolean array"
  | .seqI32 _ => "i32 array"
  | .seqI64 _ => "i64 array"
  | .seqF32 _ => "f32 array"
  | .seqF64 _ => "f64 array"

/-- `iter.collect::<Result<Vec<_>, _>>()`: collect the elements, stopping at
and propagating the first element error. -/
def collectE {α : Type} : List (Except PError α) → Except PError (List α)
  | [] => .ok []
  | .error e :: _ => .error e
  | .ok x :: rest =>
    match collectE rest with
    | .ok xs => .ok (x :: xs)
    | .error e => .error e

/-- `PrimitiveVisitor<bool>` (visitor.rs): `visit_bool` is overridden to
return the value; every other method keeps the trait default, which raises
`UnexpectedAttribute(self.expecting(), got)` with `expecting() = "single
boolean"`. -/
def visitPrimBool : AttrInput → Except PError Bool
  | .boolean v => .ok v
  | a => .error (.unexpectedAttribute "single boolean" (gotName a))

/-- `PrimitiveVisitor<i16>` (visitor.rs). -/
def visitPrimI16 : AttrInput → Except PError Int
  | .i16 v => .ok v
  | a => .error (.unexpectedAttribute "single i16" (gotName a))

/-- `PrimitiveVisitor<i32>` (visitor.rs). -/
def visitPrimI32 : AttrInput → Except PError Int
  | .i32 v => .ok v
  | a => .error (.unexpectedAttribute "single i32" (gotName a))

/-- `PrimitiveVisitor<i64>` (visitor.rs). -/
def visitPrimI64 : AttrInput → Except PError Int
  | .i64 v => .ok v
  | a => .error (.unexpectedAttribute "single i64" (gotName a))

/-- `PrimitiveVisitor<f32>` (visitor.rs). -/
def visitPrimF32 : AttrInput → Except PError Nat
  | .f32 v => .ok v
  | a => .error (.unexpectedAttribute "single f32" (gotName a))

/-- `PrimitiveVisitor<f64>` (visitor.rs). -/
def visitPrimF64 : AttrInput → Except PError Nat
  | .f64 v => .ok v
  | a => .error (.unexpectedAttribute "single f64" (gotName a))

/-- `ArrayVisitor<Vec<bool>>` (visitor.rs): `visit_seq_bool` collects the
iterator; every other method keeps the default error with
`expecting() = "boolean array"`. -/
def visitArrBool : AttrInput → Except PError (List Bool)
  | .seqBool items => collectE items
  | a => .error (.unexpectedAttribute "boolean array" (gotName a))

/-- `ArrayVisitor<Vec<i32>>` (visitor.rs). -/
def visitArrI32 : AttrInput → Except PError (List Int)
  | .seqI32 items => collectE items
  | a => .error (.unexpectedAttribute "i32 array" (gotName a))

/-- `ArrayVisitor<Vec<i64>>` (visitor.rs). -/
def visitArrI64 : AttrInput → Except PError (List Int)
  | .seqI64 items => collectE items
  | a => .error (.unexpectedAttribute "i64 array" (gotName a))

/-- `ArrayVisitor<Vec<f32>>` (visitor.rs). -/
def visitArrF32 : AttrInput → Except PError (List Nat)
  | .seqF32 items => collectE items
  | a => .error (.unexpectedAttribute "f32 array" (gotName a))

/-- `ArrayVisitor<Vec<f64>>` (visitor.rs). -/
def visitArrF64 : AttrInput → Except PError (List Nat)
  | .seqF64 items => collectE items
  | a => .error (.unexpectedAttribute "f64 array" (gotName a))

/-! ## Boolean attribute decoding -/

/-- Modelled from the spec: decoding of a `C` (bool) attribute byte
(spec section 4.2.3; the decoder is not in the provided subset, only the
`Warning` enum of src/pull_parser/error/warning.rs is).  Canonical bytes are
`b'T' = 0x54` (true) and `b'Y' = 0x59` (false); `0x01`/`0x00` are tolerated
as true/false with an `IncorrectBooleanRepresentation` warning (the second
component); any other byte is a hard error carrying the byte. -/
def readBool (b : Nat) : Except Nat (Bool × Bool) :=
  if b = 0x54 then .ok (true, false)
  else if b = 0x59 then .ok (false, false)
  else if b = 0x01 then .ok (true, true)
  else if b = 0x00 then .ok (false, true)
  else .error b

/-- Decode a sequence of bool attribute bytes, returning the decoded values
and the number of `IncorrectBooleanRepresentation` warnings delivered to the
warning sink (one per tolerated byte). -/
def decodeBools : List Nat → Except Nat (List Bool × Nat)
  | [] => .ok ([], 0)
  | b :: rest =>
    match readBool b with
    | .error e => .error e
    | .ok (v, w) =>
      match decodeBools rest with
      | .error e => .error e
      | .ok (vs, n) => .ok (v :: vs, (if w then 1 else 0) + n)

/-! ## DOM node tree (src/dom/v7400/node.rs; arena modelled from the spec) -/

/-- A DOM tree node: its arena node id, interned name (modelled as the
string contents, since `StrSym` equality coincides with byte equality),
decoded attributes, and children in sibling order.  Modelled from the spec:
the `Core` arena (spec section 4.3) is not in the provided subset; node
identity is the `id` field and child traversal follows the sibling order. -/
inductive FNode where
  | mk (id : Nat) (name : String) (attrs : List DirectAttributeValue) (children : List FNode)

/-- Arena node id of a node. -/
def FNode.id : FNode → Nat
  | .mk i _ _ _ => i

/-- Interned node name. -/
def FNode.name : FNode → String
  | .mk _ n _ _ => n

/-- Node attributes (`Node::attributes`). -/
def FNode.attrs : FNode → List DirectAttributeValue
  | .mk _ _ a _ => a

/-- Children in sibling order (`first_child`/`next_sibling` chain). -/
def FNode.children : FNode → List FNode
  | .mk _ _ _ c => c

/-- Modelled from the spec: `Core::children_by_name` (spec section 4.3), the
sibling walk emitting children whose interned name equals the given name. -/
def FNode.children_by_name (n : FNode) (s : String) : List FNode :=
  n.children.filter fun c => decide (c.name = s)

/-- `NodeId::first_node_by_path_impl` (node.rs lines 77-83): starting from
`self`, for each path component replace the current node by
`children_by_name(current, component).next()?`. -/
def first_node_by_path : FNode → List String → Option FNode
  | n, [] => some n
  | n, p :: rest =>
    match n.children_by_name p with
    | [] => none
    | c :: _ => first_node_by_path c rest

/-- The specification-side description of the path walk (spec sections 4.3
and 8.6): a monadic fold that takes the first `children_by_name` match at
each level. -/
def pathFoldSpec (n : FNode) (path : List String) : Option FNode :=
  path.foldlM (fun cur p => (cur.children_by_name p).head?) n

/-- Modelled from the spec: `Core::find_toplevel` (spec section 4.3), the
first child of the root with the given name.  The arena is represented by
the root's child list. -/
def find_toplevel (arena : List FNode) (s : String) : Option FNode :=
  arena.find? fun c => decide (c.name = s)

/-! ## DOM loader data (src/dom/v7400/document/loader.rs and collaborators) -/

/-- Association-list lookup, modelling `HashMap` lookup. -/
def alookup {κ β : Type} [DecidableEq κ] : List (κ × β) → κ → Option β
  | [], _ => none
  | (k, v) :: rest, i => if k = i then some v else alookup rest i

/-- Modelled from the spec: errors of `ObjectMeta::from_attributes`
(spec section 4.4 "Object registration"; the function is not in the provided
subset). -/
inductive MetaErr where
  | missingAttribute
  | attributeTypeMismatch
  | malformedClassName
  | nameClassMismatch
deriving DecidableEq, Repr

/-- Object metadata `(id, name, class, subclass)` (spec section 3,
`ObjectMeta`); the three strings are byte lists. -/
structure ObjectMeta where
  id : Int
  name_sym : List Nat
  class_sym : List Nat
  subclass_sym : List Nat
deriving DecidableEq, Repr

/-- Split a byte string at the first `0x00 0x01` separator, returning the
parts before and after it (spec section 4.4). -/
def sepSplit : List Nat → Option (List Nat × List Nat)
  | [] => none
  | [_] => none
  | a :: b :: rest =>
    if a = 0 ∧ b = 1 then some ([], rest)
    else
      match sepSplit (b :: rest) with
      | some (l, r) => some (a :: l, r)
      | none => none

/-- Modelled from the spec: `ObjectMeta::from_attributes`
(spec section 4.4): expect `[I64 id, String class_and_subclass, String
name_and_class]`; `class_and_subclass` splits at `0x00 0x01` into subclass
then class; `name_and_class`, when it contains the separator, splits into
name then a trailing class that must equal the class (value error
otherwise), and is taken whole as the name when it does not. -/
def ObjectMeta.from_attributes (attrs : List DirectAttributeValue) :
    Except MetaErr ObjectMeta :=
  match attrs with
  | a0 :: a1 :: a2 :: _ =>
    match a0 with
    | .I64 idv =>
      match a1 with
      | .String cs =>
        match sepSplit cs with
        | some (sub, cls) =>
          match a2 with
          | .String nc =>
            match sepSplit nc with
            | some (nm, cls2) =>
              if cls2 = cls then .ok ⟨idv, nm, cls, sub⟩
              else .error .nameClassMismatch
            | none => .ok ⟨idv, nc, cls, sub⟩
          | _ => .error .attributeTypeMismatch
        | none => .error .malformedClassName
      | _ => .error .attributeTypeMismatch
    | _ => .error .attributeTypeMismatch
  | _ => .error .missingAttribute

/-- Modelled from the spec: errors of `SceneNodeData::load`
(spec section 4.4 Pass B; the function is not in the provided subset). -/
inductive SceneErr where
  | rootNodeNotFound
  | rootIdMissing
deriving DecidableEq, Repr

/-- Per-scene descriptor: the root object id reached through the scene's
`RootNode` child (spec section 3, `SceneNodeData`). -/
structure SceneNodeData where
  root_object_id : Int
deriving DecidableEq, Repr

/-- Modelled from the spec: `SceneNodeData::load` (spec section 4.4 Pass B):
locate the `RootNode` sub-node and read its first `I64` attribute as the
root object id. -/
def SceneNodeData.load (n : FNode) : Except SceneErr SceneNodeData :=
  match (n.children_by_name "RootNode").head? with
  | none => .error .rootNodeNotFound
  | some r =>
    match r.attrs with
    | .I64 v :: _ => .ok ⟨v⟩
    | _ => .error .rootIdMissing

/-- Connection edge payload (spec section 3, `ConnectionEdge`). -/
inductive ConnEdge where
  | objectObject
  | objectProperty (label : List Nat)
  | propertyObject (label : List Nat)
  | propertyProperty (src_label dst_label : List Nat)
deriving DecidableEq, Repr

/-- A decoded object connection (spec section 3, `Connection`). -/
structure Conn where
  source_id : Int
  destination_id : Int
  edge : ConnEdge
  index : Nat
deriving DecidableEq, Repr

/-- Modelled from the spec: errors of `Connection::load_from_attributes`
(spec section 4.4 Pass C; the function is not in the provided subset).
Shape mismatches are reported uniformly as `missingAttribute`. -/
inductive ConnErr where
  | missingAttribute
  | invalidConnectionType
deriving DecidableEq, Repr

/-- The bytes of the connection type string `"OO"`. -/
def ooBytes : List Nat := [0x4F, 0x4F]

/-- The bytes of the connection type string `"OP"`. -/
def opBytes : List Nat := [0x4F, 0x50]

/-- The bytes of the connection type string `"PO"`. -/
def poBytes : List Nat := [0x50, 0x4F]

/-- The bytes of the connection type string `"PP"`. -/
def ppBytes : List Nat := [0x50, 0x50]

/-- Modelled from the spec: `Connection::load_from_attributes`
(spec section 4.4 Pass C): the first attribute is a two-character string
selecting the edge variant, the next two are `I64` source and destination
ids, and `OP`/`PO`/`PP` carry one or two further string labels.  The given
`conn_index` is stored as the insertion index. -/
def Connection.load_from_attributes (attrs : List DirectAttributeValue)
    (conn_index : Nat) : Except ConnErr Conn :=
  match attrs with
  | .String ty :: .I64 src :: .I64 dst :: rest =>
    if ty = ooBytes then .ok ⟨src, dst, .objectObject, conn_index⟩
    else if ty = opBytes then
      match rest with
      | .String l :: _ => .ok ⟨src, dst, .objectProperty l, conn_index⟩
      | _ => .error .missingAttribute
    else if ty = poBytes then
      match rest with
      | .String l :: _ => .ok ⟨src, dst, .propertyObject l, conn_index⟩
      | _ => .error .missingAttribute
    else if ty = ppBytes then
      match rest with
      | .String l1 :: .String l2 :: _ =>
        .ok ⟨src, dst, .propertyProperty l1 l2, conn_index⟩
      | _ => .error .missingAttribute
    else .error .invalidConnectionType
  | _ => .error .missingAttribute

/-- Loader error kinds (loader.rs; the `format_err!().context(Value)` errors
are modelled structurally). -/
inductive LoadErr where
  | nodeNotFound (name : String)
  | objectMeta (e : MetaErr)
  | duplicateObjectId (id : Int)
  | unexpectedSubclass
  | scene (e : SceneErr)
  | connection (e : ConnErr)
  | duplicateConnection (src dst : Int)
deriving DecidableEq, Repr

/-- Outcome of a failing load: a returned error, or a Rust `panic!`
(`assert!`/`expect`) modelled as `trap`. -/
inductive LoadFail where
  | err (e : LoadErr)
  | trap (msg : String)
deriving DecidableEq, Repr

/-- The loader's accumulated state, which is also the resulting `Document`
payload: the object-id index, the per-node object metadata, the scenes map
and the objects graph (loader.rs `LoaderImpl` fields; the graph is the edge
list in insertion order, modelling `ObjectsGraph` from the spec). -/
structure LoadState where
  object_ids : List (Int × Nat)
  object_meta : List (Nat × ObjectMeta)
  scenes : List (Nat × SceneNodeData)
  graph : List Conn
deriving DecidableEq, Repr

/-- The initial (default) loader state. -/
def emptyLoadState : LoadState := ⟨[], [], [], []⟩

/-- `LoaderImpl::err_if_strict` specialised to its only usage pattern: in
strict mode return the error, otherwise log it and return the current state
unchanged (loader.rs lines 93-99). -/
def err_if_strict (strict : Bool) (e : LoadErr) (st : LoadState) :
    Except LoadFail LoadState :=
  if strict then .error (.err e) else .ok st

/-- Insert-if-vacant for the scenes map
(`scenes_mut().entry(id).or_insert(data)`, loader.rs lines 229-232). -/
def insertScene (l : List (Nat × SceneNodeData)) (k : Nat) (v : SceneNodeData) :
    List (Nat × SceneNodeData) :=
  match alookup l k with
  | some _ => l
  | none => (k, v) :: l

/-- `LoaderImpl::add_object` (loader.rs lines 243-305): parse the object
meta (non-critical error when it fails), reject duplicate object ids
(non-critical), then insert into `object_ids` and `object_meta`; the
`assert!(!meta_dup)` is the `trap`. -/
def add_object (strict : Bool) (st : LoadState) (n : FNode) :
    Except LoadFail LoadState :=
  match ObjectMeta.from_attributes n.attrs with
  | .error e => err_if_strict strict (.objectMeta e) st
  | .ok m =>
    match alookup st.object_ids m.id with
    | some _ => err_if_strict strict (.duplicateObjectId m.id) st
    | none =>
      match alookup st.object_meta n.id with
      | some _ => .error (.trap "assertion failed: meta_dup")
      | none =>
        .ok { st with
              object_ids := (m.id, n.id) :: st.object_ids,
              object_meta := (n.id, m) :: st.object_meta }

/-- The `/Objects/*` sibling loop of `LoaderImpl::load_objects`
(loader.rs lines 150-156). -/
def load_objects_loop (strict : Bool) : List FNode → LoadState →
    Except LoadFail LoadState
  | [], st => .ok st
  | n :: rest, st =>
    match add_object strict st n with
    | .error e => .error e
    | .ok st1 => load_objects_loop strict rest st1

/-- The bytes of the subclass string `"Scene"`. -/
def sceneBytes : List Nat := [0x53, 0x63, 0x65, 0x6E, 0x65]

/-- The `/Documents/Document` sibling loop of `LoaderImpl::load_objects`
(loader.rs lines 180-235).  For each child named `Document`: register it as
an object; fetch its meta back with
`.expect("Should never fail: add_object() should have added the entry")`
(the `trap` when the registration was skipped); if the subclass is not
`Scene`, `return err_if_strict(...)` — which in non-strict mode exits the
whole loop with `.ok`; likewise when `SceneNodeData::load` fails; otherwise
record the scene and continue with the next sibling. -/
def load_documents_loop (strict : Bool) : List FNode → LoadState →
    Except LoadFail LoadState
  | [], st => .ok st
  | d :: rest, st =>
    if d.name = "Document" then
      match add_object strict st d with
      | .error e => .error e
      | .ok st1 =>
        match alookup st1.object_meta d.id with
        | none => .error (.trap "expect failed: add_object should have added the entry")
        | some m =>
          if m.subclass_sym = sceneBytes then
            match SceneNodeData.load d with
            | .error e => err_if_strict strict (.scene e) st1
            | .ok data =>
              load_documents_loop strict rest
                { st1 with scenes := insertScene st1.scenes d.id data }
          else err_if_strict strict .unexpectedSubclass st1
    else load_documents_loop strict rest st

/-- `LoaderImpl::load_objects` (loader.rs lines 122-240): the initial
`assert!(self.object_ids.is_empty())`, then Pass A over `/Objects/*` —
where a missing `Objects` node makes the whole function `return`
`err_if_strict(NodeNotFound)`, skipping the Documents pass — then Pass B
over `/Documents/Document`. -/
def load_objects (strict : Bool) (arena : List FNode) (st : LoadState) :
    Except LoadFail LoadState :=
  if st.object_ids.isEmpty then
    match find_toplevel arena "Objects" with
    | none => err_if_strict strict (.nodeNotFound "Objects") st
    | some objs =>
      match load_objects_loop strict objs.children st with
      | .error e => .error e
      | .ok st1 =>
        match find_toplevel arena "Documents" with
        | none => err_if_strict strict (.nodeNotFound "Documents") st1
        | some docs => load_documents_loop strict docs.children st1
  else .error (.trap "assertion failed: object_ids already initialized")

/-- Modelled from the spec: `ObjectsGraph::edge_weight` (spec section 3):
the existing edge between the given source and destination object ids, if
any. -/
def edge_weight : List Conn → Int → Int → Option Conn
  | [], _, _ => none
  | c :: rest, s, d =>
    if c.source_id = s ∧ c.destination_id = d then some c
    else edge_weight rest s d

/-- `LoaderImpl::add_connection` (loader.rs lines 350-397): decode the
connection — a decode failure propagates with `?` regardless of the strict
flag — then reject a duplicate `(source, destination)` pair (non-critical)
or append the edge to the graph. -/
def add_connection (strict : Bool) (st : LoadState) (n : FNode) (conn_index : Nat) :
    Except LoadFail LoadState :=
  match Connection.load_from_attributes n.attrs conn_index with
  | .error e => .error (.err (.connection e))
  | .ok conn =>
    match edge_weight st.graph conn.source_id conn.destination_id with
    | some _ =>
      err_if_strict strict (.duplicateConnection conn.source_id conn.destination_id) st
    | none => .ok { st with graph := st.graph ++ [conn] }

/-- The `/Connections/*` sibling loop of `LoaderImpl::load_connections`
(loader.rs lines 333-342): the counter is incremented for every sibling,
whether or not it is named `C`. -/
def load_connections_loop (strict : Bool) : List FNode → Nat → LoadState →
    Except LoadFail LoadState
  | [], _, st => .ok st
  | c :: rest, idx, st =>
    match (if c.name = "C" then add_connection strict st c idx else .ok st) with
    | .error e => .error e
    | .ok st1 => load_connections_loop strict rest (idx + 1) st1

/-- `LoaderImpl::load_connections` (loader.rs lines 308-347). -/
def load_connections (strict : Bool) (arena : List FNode) (st : LoadState) :
    Except LoadFail LoadState :=
  match find_toplevel arena "Connections" with
  | none => err_if_strict strict (.nodeNotFound "Connections") st
  | some cn => load_connections_loop strict cn.children 0 st

/-- `Loader::load_document` / `LoaderImpl::load_document`
(loader.rs lines 48-119): load objects, then connections, and bundle the
resulting state as the `Document`. -/
def load_document (strict : Bool) (arena : List FNode) :
    Except LoadFail LoadState :=
  match load_objects strict arena emptyLoadState with
  | .error e => .error e
  | .ok st1 => load_connections strict arena st1

/-! ## Specification-side descriptions used to state the claims -/

/-- Pair each list element with its 0-based position offset by `i`. -/
def enumFrom {α : Type} : Nat → List α → List (Nat × α)
  | _, [] => []
  | i, x :: rest => (i, x) :: enumFrom (i + 1) rest

/-- The connections loop expressed over explicitly indexed siblings: each
`C` node is handed exactly the paired index. -/
def conns_fold_indexed (strict : Bool) : List (Nat × FNode) → LoadState →
    Except LoadFail LoadState
  | [], st => .ok st
  | (i, c) :: rest, st =>
    match (if c.name = "C" then add_connection strict st c i else .ok st) with
    | .error e => .error e
    | .ok st1 => conns_fold_indexed strict rest st1

/-- One first-seen-wins registration step on the object-id index: parse the
node's meta; on success insert `id -> node id` unless the id is already
present; on failure leave the index unchanged. -/
def regStep (ids : List (Int × Nat)) (n : FNode) : List (Int × Nat) :=
  match ObjectMeta.from_attributes n.attrs with
  | .ok m =>
    match alookup ids m.id with
    | some _ => ids
    | none => (m.id, n.id) :: ids
  | .error _ => ids

/-- The `Document`-named children of a `Documents` child list that the
non-strict loader actually registers: the loop stops at (but still
registers) the first `Document` whose subclass is not `Scene` or whose
scene data fails to load. -/
def docsProcessed : List FNode → List FNode
  | [] => []
  | d :: rest =>
    if d.name = "Document" then
      match ObjectMeta.from_attributes d.attrs with
      | .error _ => [d]
      | .ok m =>
        if m.subclass_sym = sceneBytes then
          match SceneNodeData.load d with
          | .error _ => [d]
          | .ok _ => d :: docsProcessed rest
        else [d]
    else docsProcessed rest

/-- The object-id index a successful non-strict load produces, described
from the spec side: first-seen-wins registration over the `Objects`
children followed by the processed `Documents/Document` prefix; everything
is skipped when `Objects` is absent. -/
def specRegs (arena : List FNode) : List (Int × Nat) :=
  match find_toplevel arena "Objects" with
  | none => []
  | some objs =>
    let afterObjs := objs.children.foldl regStep []
    match find_toplevel arena "Documents" with
    | none => afterObjs
    | some docs => (docsProcessed docs.children).foldl regStep afterObjs

/-- One first-seen-wins connection step over an indexed sibling: non-`C`
siblings and undecodable `C` nodes leave the graph unchanged; a decoded
connection is appended unless an edge for its `(source, destination)` pair
already exists. -/
def connStep (g : List Conn) (p : Nat × FNode) : List Conn :=
  if p.2.name = "C" then
    match Connection.load_from_attributes p.2.attrs p.1 with
    | .ok conn =>
      match edge_weight g conn.source_id conn.destination_id with
      | some _ => g
      | none => g ++ [conn]
    | .error _ => g
  else g

/-- The objects graph a successful load produces, described from the spec
side: a first-seen-wins fold over the `Connections` children paired with
their 0-based sibling positions. -/
def specConns (arena : List FNode) : List Conn :=
  match find_toplevel arena "Connections" with
  | none => []
  | some cn => (enumFrom 0 cn.children).foldl connStep []

/-- The children of the `Objects` top-level node, if any. -/
def objsChildren (arena : List FNode) : List FNode :=
  match find_toplevel arena "Objects" with
  | some o => o.children
  | none => []

/-- The `Document`-named children of the `Documents` top-level node. -/
def docChildren (arena : List FNode) : List FNode :=
  match find_toplevel arena "Documents" with
  | some d => d.children.filter fun c => decide (c.name = "Document")
  | none => []

/-- All object nodes of an arena: the `Objects` children followed by the
`Documents/Document` nodes (spec glossary, "Object node"). -/
def objectNodes (arena : List FNode) : List FNode :=
  objsChildren arena ++ docChildren arena

/-- The arena node ids of all object nodes; their pairwise distinctness is
the `indextree` arena invariant the loader relies on. -/
def visitedIds (arena : List FNode) : List Nat :=
  (objectNodes arena).map FNode.id

/-- The object id carried by a node's first attribute, when that attribute
is an `I64`. -/
def firstAttrI64 (n : FNode) : Option Int :=
  match n.attrs with
  | .I64 v :: _ => some v
  | _ => none

/-- The arena contains a duplicate object id: two object nodes, at distinct
positions, whose first attribute decodes to the same `I64`. -/
def hasDuplicateObjectId (arena : List FNode) : Prop :=
  ∃ i j a b v, i < j ∧
    (objectNodes arena).get? i = some a ∧
    (objectNodes arena).get? j = some b ∧
    firstAttrI64 a = some v ∧ firstAttrI64 b = some v

/-- The children of the `Connections` top-level node, if any. -/
def connsChildren (arena : List FNode) : List FNode :=
  match find_toplevel arena "Connections" with
  | some c => c.children
  | none => []

/-- The arena contains a duplicate connection: two `C` nodes under
`Connections`, at distinct sibling positions, decoding to the same
`(source, destination)` pair. -/
def hasDuplicateConnection (arena : List FNode) : Prop :=
  ∃ i j a b ca cb, i < j ∧
    (connsChildren arena).get? i = some a ∧
    (connsChildren arena).get? j = some b ∧
    a.name = "C" ∧ b.name = "C" ∧
    Connection.load_from_attributes a.attrs i = .ok ca ∧
    Connection.load_from_attributes b.attrs j = .ok cb ∧
    ca.source_id = cb.source_id ∧ ca.destination_id = cb.destination_id

/-! ## Concrete arenas used as evaluation inputs -/

/-- Attributes of a plain object node with the given id: subclass `"X"`,
class `"D"`, name `"A"` (`"X\x00\x01D"` and `"A\x00\x01D"`). -/
def objAttrs (i : Int) : List DirectAttributeValue :=
  [.I64 i, .String [0x58, 0, 1, 0x44], .String [0x41, 0, 1, 0x44]]

/-- Attributes of a `Document` node with the given id and subclass `Scene`:
`"Scene\x00\x01D"` and `"A\x00\x01D"`. -/
def sceneDocAttrs (i : Int) : List DirectAttributeValue :=
  [.I64 i, .String (sceneBytes ++ [0, 1, 0x44]), .String [0x41, 0, 1, 0x44]]

/-- Attributes of an `OO` connection `C` node from source 42 to
destination 0. -/
def connAttrsOO : List DirectAttributeValue :=
  [.String ooBytes, .I64 42, .I64 0]

/-- An arena with a duplicate object id (both `Objects` children carry id
42) and a `C` node under `Connections` with no attributes. -/
def arenaDupBadConn : List FNode :=
  [.mk 100 "Objects" []
     [.mk 1 "" (objAttrs 42) [], .mk 2 "" (objAttrs 42) []],
   .mk 101 "Connections" [] [.mk 3 "C" [] []]]

/-- An arena with a duplicate object id (both `Objects` children carry id
42) and a duplicate `OO` connection. -/
def arenaDup : List FNode :=
  [.mk 100 "Objects" []
     [.mk 1 "" (objAttrs 42) [], .mk 2 "" (objAttrs 42) []],
   .mk 102 "Connections" []
     [.mk 3 "C" connAttrsOO [], .mk 4 "C" connAttrsOO []]]

/-- An arena with no `Objects` child but with a well-formed
`Documents/Document` scene entry. -/
def arenaNoObjects : List FNode :=
  [.mk 50 "Documents" []
     [.mk 51 "Document" (sceneDocAttrs 7) [.mk 52 "RootNode" [.I64 0] []]]]

/-- An arena whose `Documents` list has a first `Document` with subclass
`"X"` (not `Scene`) followed by a well-formed scene `Document`. -/
def arenaBadDoc : List FNode :=
  [.mk 100 "Objects" [] [],
   .mk 101 "Documents" []
     [.mk 10 "Document" (objAttrs 1) [],
      .mk 11 "Document" (sceneDocAttrs 2) [.mk 12 "RootNode" [.I64 0] []]]]

/-- A small tree for exercising the path lookup: two children named `"a"`,
the first of which has a `"b"` child. -/
def pathTree : FNode :=
  .mk 0 "" [] [.mk 1 "a" [] [.mk 2 "b" [] []], .mk 3 "a" [] []]

/-! ## General helper lemmas -/

theorem aux_alookup_none_iff {κ β : Type} [DecidableEq κ]
    (l : List (κ × β)) (k : κ) :
    alookup l k = none ↔ k ∉ l.map Prod.fst := by
  induction l with
  | nil => simp [alookup]
  | cons p rest ih =>
    obtain ⟨a, b⟩ := p
    by_cases h : a = k
    · subst h
      simp [alookup]
    · simp [alookup, h, ih, Ne.symm h]

theorem aux_alookup_some_mem {κ β : Type} [DecidableEq κ]
    {l : List (κ × β)} {k : κ} {v : β} (h : alookup l k = some v) :
    (k, v) ∈ l := by
  induction l with
  | nil => simp [alookup] at h
  | cons p rest ih =>
    obtain ⟨a, b⟩ := p
    by_cases ha : a = k
    · subst ha
      simp [alookup] at h
      simp [h]
    · simp [alookup, ha] at h
      exact List.mem_cons_of_mem _ (ih h)

theorem aux_mem_alookup_ne_none {κ β : Type} [DecidableEq κ]
    {l : List (κ × β)} {k : κ} {v : β} (h : (k, v) ∈ l) :
    alookup l k ≠ none := by
  intro hn
  rw [aux_alookup_none_iff] at hn
  exact hn (List.mem_map_of_mem Prod.fst h)

/-! ## C4: boolean encoding tolerance -/

/-- C4.  The bool attribute decoder accepts exactly the four bytes `b'T'`,
`b'Y'`, `0x01`, `0x00`: the first two decode without a warning, the
tolerated two decode with an `IncorrectBooleanRepresentation` warning, any
other byte is a hard error, and the attribute list
`[C=0x01, C=0x00, C=b'T', C=b'Y']` decodes to `[true, false, true, false]`
with exactly two warnings. -/
theorem c4_boolean_tolerance :
    readBool 0x54 = .ok (true, false) ∧
    readBool 0x01 = .ok (true, true) ∧
    readBool 0x59 = .ok (false, false) ∧
    readBool 0x00 = .ok (false, true) ∧
    (∀ b : Nat, b ≠ 0x54 → b ≠ 0x59 → b ≠ 0x01 → b ≠ 0x00 →
      readBool b = .error b) ∧
    decodeBools [0x01, 0x00, 0x54, 0x59] = .ok ([true, false, true, false], 2) := by
  refine ⟨by decide, by decide, by decide, by decide, ?_, by decide⟩
  intro b h1 h2 h3 h4
  simp [readBool, h1, h2, h3, h4]

/-- C4 witness: the fifth conjunct applied at the concrete byte `7`. -/
theorem c4_boolean_tolerance_witness : readBool 7 = .error 7 :=
  c4_boolean_tolerance.2.2.2.2.1 7 (by decide) (by decide) (by decide) (by decide)

/-! ## C8: forward-only skipping -/

/-- C8.  `skip_to(pos)` traps exactly when `pos` is behind the current
position, otherwise delegates to `skip_distance(pos - position())`, and
neither skipping operation ever moves the position backward. -/
theorem c8_skip_forward_only (s : StreamSource) (pos : Nat) :
    ((∃ msg, s.skip_to pos = .error msg) ↔ pos < s.position) ∧
    (s.position ≤ pos →
      s.skip_to pos = .ok (s.skip_distance (pos - s.position))) ∧
    (∀ n, s.position ≤ (s.skip_distance n).position) ∧
    (∀ t, s.skip_to pos = .ok t → s.position ≤ t.position) := by
  have hsd : ∀ n, s.position ≤ (s.skip_distance n).position := by
    intro n
    simp [StreamSource.skip_distance, StreamSource.position]
  refine ⟨?_, ?_, hsd, ?_⟩
  · constructor
    · rintro ⟨msg, hmsg⟩
      by_contra hlt
      simp [StreamSource.skip_to, hlt] at hmsg
    · intro hlt
      exact ⟨"Attempt to skip backward", by simp [StreamSource.skip_to, hlt]⟩
  · intro hle
    simp [StreamSource.skip_to, Nat.not_lt.mpr hle]
  · intro t ht
    by_cases hlt : pos < s.position
    · simp [StreamSource.skip_to, hlt] at ht
    · simp [StreamSource.skip_to, hlt] at ht
      rw [← ht]
      exact hsd _

/-- C8 witness: the theorem applied at the concrete source at position 5 of
a 10-byte stream and target position 7. -/
theorem c8_skip_forward_only_witness :
    (StreamSource.mk 5 10).position ≤ 7 ∧
    (StreamSource.mk 5 10).skip_to 7 =
      .ok ((StreamSource.mk 5 10).skip_distance (7 - (StreamSource.mk 5 10).position)) :=
  ⟨by decide, (c8_skip_forward_only (StreamSource.mk 5 10) 7).2.1 (by decide)⟩

/-! ## C7: path lookup as a fold over children_by_name -/

/-- C7.  `first_node_by_path` equals the monadic fold that takes the head
of `children_by_name` at each step, is the identity on the empty path, and
returns `none` exactly when some step's `children_by_name` list is empty. -/
theorem c7_first_node_by_path (n : FNode) (path : List String) :
    first_node_by_path n path = pathFoldSpec n path ∧
    first_node_by_path n [] = some n ∧
    (first_node_by_path n path = none ↔
      ∃ k, ∃ h : k < path.length, ∃ m,
        first_node_by_path n (path.take k) = some m ∧
        m.children_by_name (path.get ⟨k, h⟩) = []) := by
  refine ⟨?_, rfl, ?_⟩
  · induction path generalizing n with
    | nil => simp [first_node_by_path, pathFoldSpec]
    | cons p rest ih =>
      cases h : n.children_by_name p with
      | nil => simp [first_node_by_path, pathFoldSpec, h]
      | cons c t =>
        simp [first_node_by_path, pathFoldSpec, h, List.foldlM_cons]
        rw [← pathFoldSpec]
        exact ih c
  · induction path generalizing n with
    | nil => simp [first_node_by_path]
    | cons p rest ih =>
      cases h : n.children_by_name p with
      | nil =>
        simp only [first_node_by_path, h]
        constructor
        · intro _
          exact ⟨0, by simp, n, by simp [first_node_by_path], by simpa using h⟩
        · intro _
          trivial
      | cons c t =>
        simp only [first_node_by_path, h]
        rw [ih c]
        constructor
        · rintro ⟨k, hk, m, hm, hc⟩
          refine ⟨k + 1, by simpa using Nat.succ_lt_succ hk, m, ?_, ?_⟩
          · simpa [first_node_by_path, h] using hm
          · simpa using hc
        · rintro ⟨k, hk, m, hm, hc⟩
          cases k with
          | zero =>
            simp [first_node_by_path] at hm
            subst hm
            simp [List.get] at hc
            rw [hc] at h
            cases h
          | succ k =>
            refine ⟨k, by simpa using Nat.lt_of_succ_lt_succ hk, m, ?_, ?_⟩
            · simpa [first_node_by_path, h] using hm
            · simpa using hc

/-- C7 witness: the theorem applied at the concrete `pathTree` with the
path `["a", "b"]` and with the empty path. -/
theorem c7_first_node_by_path_witness :
    first_node_by_path pathTree ["a", "b"] = pathFoldSpec pathTree ["a", "b"] ∧
    first_node_by_path pathTree [] = some pathTree :=
  ⟨(c7_first_node_by_path pathTree ["a", "b"]).1,
   (c7_first_node_by_path pathTree []).2.1⟩

/-! ## C9: visitor dispatch -/

theorem aux_collectE_map_ok {α : Type} (xs : List α) :
    collectE (xs.map .ok) = .ok xs := by
  induction xs with
  | nil => rfl
  | cons x t ih => simp [collectE, ih]

theorem aux_collectE_first_error {α : Type} (xs : List α) (e : PError)
    (rest : List (Except PError α)) :
    collectE (xs.map .ok ++ .error e :: rest) = .error e := by
  induction xs with
  | nil => rfl
  | cons x t ih => simp [collectE, ih]

/-- C9.  Every primitive visitor returns the value on its matching
`visit_*` method and an `UnexpectedAttribute(expecting, got)` error on
every other method; every array visitor collects the element iterator on
its matching method — propagating the first element error — and raises the
same typed error on every other method. -/
theorem c9_visitor_dispatch :
    (∀ v, visitPrimBool (.boolean v) = .ok v) ∧
    (∀ a, (∀ v, a ≠ .boolean v) →
      visitPrimBool a = .error (.unexpectedAttribute "single boolean" (gotName a))) ∧
    (∀ v, visitPrimI16 (.i16 v) = .ok v) ∧
    (∀ a, (∀ v, a ≠ .i16 v) →
      visitPrimI16 a = .error (.unexpectedAttribute "single i16" (gotName a))) ∧
    (∀ v, visitPrimI32 (.i32 v) = .ok v) ∧
    (∀ a, (∀ v, a ≠ .i32 v) →
      visitPrimI32 a = .error (.unexpectedAttribute "single i32" (gotName a))) ∧
    (∀ v, visitPrimI64 (.i64 v) = .ok v) ∧
    (∀ a, (∀ v, a ≠ .i64 v) →
      visitPrimI64 a = .error (.unexpectedAttribute "single i64" (gotName a))) ∧
    (∀ v, visitPrimF32 (.f32 v) = .ok v) ∧
    (∀ a, (∀ v, a ≠ .f32 v) →
      visitPrimF32 a = .error (.unexpectedAttribute "single f32" (gotName a))) ∧
    (∀ v, visitPrimF64 (.f64 v) = .ok v) ∧
    (∀ a, (∀ v, a ≠ .f64 v) →
      visitPrimF64 a = .error (.unexpectedAttribute "single f64" (gotName a))) ∧
    (∀ xs : List Bool, visitArrBool (.seqBool (xs.map .ok)) = .ok xs) ∧
    (∀ (xs : List Bool) e rest, visitArrBool (.seqBool (xs.map .ok ++ .error e :: rest)) = .error e) ∧
    (∀ a, (∀ items, a ≠ .seqBool items) →
      visitArrBool a = .error (.unexpectedAttribute "boolean array" (gotName a))) ∧
    (∀ xs : List Int, visitArrI32 (.seqI32 (xs.map .ok)) = .ok xs) ∧
    (∀ (xs : List Int) e rest, visitArrI32 (.seqI32 (xs.map .ok ++ .error e :: rest)) = .error e) ∧
    (∀ a, (∀ items, a ≠ .seqI32 items) →
      visitArrI32 a = .error (.unexpectedAttribute "i32 array" (gotName a))) ∧
    (∀ xs : List Int, visitArrI64 (.seqI64 (xs.map .ok)) = .ok xs) ∧
    (∀ (xs : List Int) e rest, visitArrI64 (.seqI64 (xs.map .ok ++ .error e :: rest)) = .error e) ∧
    (∀ a, (∀ items, a ≠ .seqI64 items) →
      visitArrI64 a = .error (.unexpectedAttribute "i64 array" (gotName a))) ∧
    (∀ xs : List Nat, visitArrF32 (.seqF32 (xs.map .ok)) = .ok xs) ∧
    (∀ (xs : List Nat) e rest, visitArrF32 (.seqF32 (xs.map .ok ++ .error e :: rest)) = .error e) ∧
    (∀ a, (∀ items, a ≠ .seqF32 items) →
      visitArrF32 a = .error (.unexpectedAttribute "f32 array" (gotName a))) ∧
    (∀ xs : List Nat, visitArrF64 (.seqF64 (xs.map .ok)) = .ok xs) ∧
    (∀ (xs : List Nat) e rest, visitArrF64 (.seqF64 (xs.map .ok ++ .error e :: rest)) = .error e) ∧
    (∀ a, (∀ items, a ≠ .seqF64 items) →
      visitArrF64 a = .error (.unexpectedAttribute "f64 array" (gotName a))) := by
  refine ⟨fun v => rfl, ?_, fun v => rfl, ?_, fun v => rfl, ?_, fun v => rfl, ?_,
    fun v => rfl, ?_, fun v => rfl, ?_,
    fun xs => by simp [visitArrBool, aux_collectE_map_ok],
    fun xs e rest => by simp [visitArrBool, aux_collectE_first_error], ?_,
    fun xs => by simp [visitArrI32, aux_collectE_map_ok],
    fun xs e rest => by simp [visitArrI32, aux_collectE_first_error], ?_,
    fun xs => by simp [visitArrI64, aux_collectE_map_ok],
    fun xs e rest => by simp [visitArrI64, aux_collectE_first_error], ?_,
    fun xs => by simp [visitArrF32, aux_collectE_map_ok],
    fun xs e rest => by simp [visitArrF32, aux_collectE_first_error], ?_,
    fun xs => by simp [visitArrF64, aux_collectE_map_ok],
    fun xs e rest => by simp [visitArrF64, aux_collectE_first_error], ?_⟩ <;>
  · intro a h
    cases a <;> first | exact absurd rfl (h _) | rfl

/-- C9 witness: the expecting/got error components at concrete mismatching
inputs, obtained by applying the theorem. -/
theorem c9_visitor_dispatch_witness :
    visitPrimBool (.i16 3) =
      .error (.unexpectedAttribute "single boolean" "i16") ∧
    visitPrimI16 (.boolean true) =
      .error (.unexpectedAttribute "single i16" "boolean") ∧
    visitPrimI32 (.seqI32 []) =
      .error (.unexpectedAttribute "single i32" "i32 array") ∧
    visitPrimI64 (.f64 0) =
      .error (.unexpectedAttribute "single i64" "f64") ∧
    visitPrimF32 (.f64 0) =
      .error (.unexpectedAttribute "single f32" "f64") ∧
    visitPrimF64 (.f32 0) =
      .error (.unexpectedAttribute "single f64" "f32") ∧
    visitArrBool (.boolean true) =
      .error (.unexpectedAttribute "boolean array" "boolean") ∧
    visitArrI32 (.seqI64 []) =
      .error (.unexpectedAttribute "i32 array" "i64 array") ∧
    visitArrI64 (.i64 1) =
      .error (.unexpectedAttribute "i64 array" "i64") ∧
    visitArrF32 (.seqF64 []) =
      .error (.unexpectedAttribute "f32 array" "f64 array") ∧
    visitArrF64 (.seqF32 []) =
      .error (.unexpectedAttribute "f64 array" "f32 array") :=
  ⟨c9_visitor_dispatch.2.1 (.i16 3) (fun v h => by cases h),
   c9_visitor_dispatch.2.2.2.1 (.boolean true) (fun v h => by cases h),
   c9_visitor_dispatch.2.2.2.2.2.1 (.seqI32 []) (fun v h => by cases h),
   c9_visitor_dispatch.2.2.2.2.2.2.2.1 (.f64 0) (fun v h => by cases h),
   c9_visitor_dispatch.2.2.2.2.2.2.2.2.2.1 (.f64 0) (fun v h => by cases h),
   c9_visitor_dispatch.2.2.2.2.2.2.2.2.2.2.2.1 (.f32 0) (fun v h => by cases h),
   c9_visitor_dispatch.2.2.2.2.2.2.2.2.2.2.2.2.2.2.1 (.boolean true)
     (fun v h => by cases h),
   c9_visitor_dispatch.2.2.2.2.2.2.2.2.2.2.2.2.2.2.2.2.2.1 (.seqI64 [])
     (fun v h => by cases h),
   c9_visitor_dispatch.2.2.2.2.2.2.2.2.2.2.2.2.2.2.2.2.2.2.2.2.1 (.i64 1)
     (fun v h => by cases h),
   c9_visitor_dispatch.2.2.2.2.2.2.2.2.2.2.2.2.2.2.2.2.2.2.2.2.2.2.2.1 (.seqF64 [])
     (fun v h => by cases h),
   c9_visitor_dispatch.2.2.2.2.2.2.2.2.2.2.2.2.2.2.2.2.2.2.2.2.2.2.2.2.2.2
     (.seqF32 []) (fun v h => by cases h)⟩

/-! ## C10: attribute value accessors -/

/-- C10.  For both `AttributeValue` and `DirectAttributeValue` — two enums
with identical variants — each `get_X` accessor returns `some` payload
exactly on variant `X` and `none` otherwise, each `get_X_or_type` accessor
returns `Ok` of the payload on a match and an `Err` carrying the value's
actual `type_()` tag otherwise, and the variant-wise translation between
the two enums preserves `type_` and every `get_X` accessor. -/
theorem c10_attribute_getters :
    (∀ v x, AttributeValue.get_bool v = some x ↔ v = .Bool x) ∧
    (∀ v, AttributeValue.get_bool_or_type v = (AttributeValue.get_bool v).elim (.error v.type_) Except.ok) ∧
    (∀ v x, AttributeValue.get_i16 v = some x ↔ v = .I16 x) ∧
    (∀ v, AttributeValue.get_i16_or_type v = (AttributeValue.get_i16 v).elim (.error v.type_) Except.ok) ∧
    (∀ v x, AttributeValue.get_i32 v = some x ↔ v = .I32 x) ∧
    (∀ v, AttributeValue.get_i32_or_type v = (AttributeValue.get_i32 v).elim (.error v.type_) Except.ok) ∧
    (∀ v x, AttributeValue.get_i64 v = some x ↔ v = .I64 x) ∧
    (∀ v, AttributeValue.get_i64_or_type v = (AttributeValue.get_i64 v).elim (.error v.type_) Except.ok) ∧
    (∀ v x, AttributeValue.get_f32 v = some x ↔ v = .F32 x) ∧
    (∀ v, AttributeValue.get_f32_or_type v = (AttributeValue.get_f32 v).elim (.error v.type_) Except.ok) ∧
    (∀ v x, AttributeValue.get_f64 v = some x ↔ v = .F64 x) ∧
    (∀ v, AttributeValue.get_f64_or_type v = (AttributeValue.get_f64 v).elim (.error v.type_) Except.ok) ∧
    (∀ v x, AttributeValue.get_arr_bool v = some x ↔ v = .ArrBool x) ∧
    (∀ v, AttributeValue.get_arr_bool_or_type v = (AttributeValue.get_arr_bool v).elim (.error v.type_) Except.ok) ∧
    (∀ v x, AttributeValue.get_arr_i32 v = some x ↔ v = .ArrI32 x) ∧
    (∀ v, AttributeValue.get_arr_i32_or_type v = (AttributeValue.get_arr_i32 v).elim (.error v.type_) Except.ok) ∧
    (∀ v x, AttributeValue.get_arr_i64 v = some x ↔ v = .ArrI64 x) ∧
    (∀ v, AttributeValue.get_arr_i64_or_type v = (AttributeValue.get_arr_i64 v).elim (.error v.type_) Except.ok) ∧
    (∀ v x, AttributeValue.get_arr_f32 v = some x ↔ v = .ArrF32 x) ∧
    (∀ v, AttributeValue.get_arr_f32_or_type v = (AttributeValue.get_arr_f32 v).elim (.error v.type_) Except.ok) ∧
    (∀ v x, AttributeValue.get_arr_f64 v = some x ↔ v = .ArrF64 x) ∧
    (∀ v, AttributeValue.get_arr_f64_or_type v = (AttributeValue.get_arr_f64 v).elim (.error v.type_) Except.ok) ∧
    (∀ v x, AttributeValue.get_string v = some x ↔ v = .String x) ∧
    (∀ v, AttributeValue.get_string_or_type v = (AttributeValue.get_string v).elim (.error v.type_) Except.ok) ∧
    (∀ v x, AttributeValue.get_binary v = some x ↔ v = .Binary x) ∧
    (∀ v, AttributeValue.get_binary_or_type v = (AttributeValue.get_binary v).elim (.error v.type_) Except.ok) ∧
    (∀ v x, DirectAttributeValue.get_bool v = some x ↔ v = .Bool x) ∧
    (∀ v, DirectAttributeValue.get_bool_or_type v = (DirectAttributeValue.get_bool v).elim (.error v.type_) Except.ok) ∧
    (∀ v x, DirectAttributeValue.get_i16 v = some x ↔ v = .I16 x) ∧
    (∀ v, DirectAttributeValue.get_i16_or_type v = (DirectAttributeValue.get_i16 v).elim (.error v.type_) Except.ok) ∧
    (∀ v x, DirectAttributeValue.get_i32 v = some x ↔ v = .I32 x) ∧
    (∀ v, DirectAttributeValue.get_i32_or_type v = (DirectAttributeValue.get_i32 v).elim (.error v.type_) Except.ok) ∧
    (∀ v x, DirectAttributeValue.get_i64 v = some x ↔ v = .I64 x) ∧
    (∀ v, DirectAttributeValue.get_i64_or_type v = (DirectAttributeValue.get_i64 v).elim (.error v.type_) Except.ok) ∧
    (∀ v x, DirectAttributeValue.get_f32 v = some x ↔ v = .F32 x) ∧
    (∀ v, DirectAttributeValue.get_f32_or_type v = (DirectAttributeValue.get_f32 v).elim (.error v.type_) Except.ok) ∧
    (∀ v x, DirectAttributeValue.get_f64 v = some x ↔ v = .F64 x) ∧
    (∀ v, DirectAttributeValue.get_f64_or_type v = (DirectAttributeValue.get_f64 v).elim (.error v.type_) Except.ok) ∧
    (∀ v x, DirectAttributeValue.get_arr_bool v = some x ↔ v = .ArrBool x) ∧
    (∀ v, DirectAttributeValue.get_arr_bool_or_type v = (DirectAttributeValue.get_arr_bool v).elim (.error v.type_) Except.ok) ∧
    (∀ v x, DirectAttributeValue.get_arr_i32 v = some x ↔ v = .ArrI32 x) ∧
    (∀ v, DirectAttributeValue.get_arr_i32_or_type v = (DirectAttributeValue.get_arr_i32 v).elim (.error v.type_) Except.ok) ∧
    (∀ v x, DirectAttributeValue.get_arr_i64 v = some x ↔ v = .ArrI64 x) ∧
    (∀ v, DirectAttributeValue.get_arr_i64_or_type v = (DirectAttributeValue.get_arr_i64 v).elim (.error v.type_) Except.ok) ∧
    (∀ v x, DirectAttributeValue.get_arr_f32 v = some x ↔ v = .ArrF32 x) ∧
    (∀ v, DirectAttributeValue.get_arr_f32_or_type v = (DirectAttributeValue.get_arr_f32 v).elim (.error v.type_) Except.ok) ∧
    (∀ v x, DirectAttributeValue.get_arr_f64 v = some x ↔ v = .ArrF64 x) ∧
    (∀ v, DirectAttributeValue.get_arr_f64_or_type v = (DirectAttributeValue.get_arr_f64 v).elim (.error v.type_) Except.ok) ∧
    (∀ v x, DirectAttributeValue.get_string v = some x ↔ v = .String x) ∧
    (∀ v, DirectAttributeValue.get_string_or_type v = (DirectAttributeValue.get_string v).elim (.error v.type_) Except.ok) ∧
    (∀ v x, DirectAttributeValue.get_binary v = some x ↔ v = .Binary x) ∧
    (∀ v, DirectAttributeValue.get_binary_or_type v = (DirectAttributeValue.get_binary v).elim (.error v.type_) Except.ok) ∧
    (∀ v, (toDirect v).type_ = v.type_) ∧
    (∀ v, (toDirect v).get_bool = v.get_bool) ∧
    (∀ v, (toDirect v).get_i16 = v.get_i16) ∧
    (∀ v, (toDirect v).get_i32 = v.get_i32) ∧
    (∀ v, (toDirect v).get_i64 = v.get_i64) ∧
    (∀ v, (toDirect v).get_f32 = v.get_f32) ∧
    (∀ v, (toDirect v).get_f64 = v.get_f64) ∧
    (∀ v, (toDirect v).get_arr_bool = v.get_arr_bool) ∧
    (∀ v, (toDirect v).get_arr_i32 = v.get_arr_i32) ∧
    (∀ v, (toDirect v).get_arr_i64 = v.get_arr_i64) ∧
    (∀ v, (toDirect v).get_arr_f32 = v.get_arr_f32) ∧
    (∀ v, (toDirect v).get_arr_f64 = v.get_arr_f64) ∧
    (∀ v, (toDirect v).get_string = v.get_string) ∧
    (∀ v, (toDirect v).get_binary = v.get_binary) :=
  ⟨(by intro v x; cases v <;> simp [AttributeValue.get_bool]),
   (by intro v; cases v <;> rfl),
   (by intro v x; cases v <;> simp [AttributeValue.get_i16]),
   (by intro v; cases v <;> rfl),
   (by intro v x; cases v <;> simp [AttributeValue.get_i32]),
   (by intro v; cases v <;> rfl),
   (by intro v x; cases v <;> simp [AttributeValue.get_i64]),
   (by intro v; cases v <;> rfl),
   (by intro v x; cases v <;> simp [AttributeValue.get_f32]),
   (by intro v; cases v <;> rfl),
   (by intro v x; cases v <;> simp [AttributeValue.get_f64]),
   (by intro v; cases v <;> rfl),
   (by intro v x; cases v <;> simp [AttributeValue.get_arr_bool]),
   (by intro v; cases v <;> rfl),
   (by intro v x; cases v <;> simp [AttributeValue.get_arr_i32]),
   (by intro v; cases v <;> rfl),
   (by intro v x; cases v <;> simp [AttributeValue.get_arr_i64]),
   (by intro v; cases v <;> rfl),
   (by intro v x; cases v <;> simp [AttributeValue.get_arr_f32]),
   (by intro v; cases v <;> rfl),
   (by intro v x; cases v <;> simp [AttributeValue.get_arr_f64]),
   (by intro v; cases v <;> rfl),
   (by intro v x; cases v <;> simp [AttributeValue.get_string]),
   (by intro v; cases v <;> rfl),
   (by intro v x; cases v <;> simp [AttributeValue.get_binary]),
   (by intro v; cases v <;> rfl),
   (by intro v x; cases v <;> simp [DirectAttributeValue.get_bool]),
   (by intro v; cases v <;> rfl),
   (by intro v x; cases v <;> simp [DirectAttributeValue.get_i16]),
   (by intro v; cases v <;> rfl),
   (by intro v x; cases v <;> simp [DirectAttributeValue.get_i32]),
   (by intro v; cases v <;> rfl),
   (by intro v x; cases v <;> simp [DirectAttributeValue.get_i64]),
   (by intro v; cases v <;> rfl),
   (by intro v x; cases v <;> simp [DirectAttributeValue.get_f32]),
   (by intro v; cases v <;> rfl),
   (by intro v x; cases v <;> simp [DirectAttributeValue.get_f64]),
   (by intro v; cases v <;> rfl),
   (by intro v x; cases v <;> simp [DirectAttributeValue.get_arr_bool]),
   (by intro v; cases v <;> rfl),
   (by intro v x; cases v <;> simp [DirectAttributeValue.get_arr_i32]),
   (by intro v; cases v <;> rfl),
   (by intro v x; cases v <;> simp [DirectAttributeValue.get_arr_i64]),
   (by intro v; cases v <;> rfl),
   (by intro v x; cases v <;> simp [DirectAttributeValue.get_arr_f32]),
   (by intro v; cases v <;> rfl),
   (by intro v x; cases v <;> simp [DirectAttributeValue.get_arr_f64]),
   (by intro v; cases v <;> rfl),
   (by intro v x; cases v <;> simp [DirectAttributeValue.get_string]),
   (by intro v; cases v <;> rfl),
   (by intro v x; cases v <;> simp [DirectAttributeValue.get_binary]),
   (by intro v; cases v <;> rfl),
   (by intro v; cases v <;> rfl),
   (by intro v; cases v <;> rfl),
   (by intro v; cases v <;> rfl),
   (by intro v; cases v <;> rfl),
   (by intro v; cases v <;> rfl),
   (by intro v; cases v <;> rfl),
   (by intro v; cases v <;> rfl),
   (by intro v; cases v <;> rfl),
   (by intro v; cases v <;> rfl),
   (by intro v; cases v <;> rfl),
   (by intro v; cases v <;> rfl),
   (by intro v; cases v <;> rfl),
   (by intro v; cases v <;> rfl),
   (by intro v; cases v <;> rfl)⟩

/-- C10 witness: selected conjuncts of the theorem applied at concrete
attribute values. -/
theorem c10_attribute_getters_witness :
    (AttributeValue.get_i64 (.I64 5) = some 5 ↔ AttributeValue.I64 5 = .I64 5) ∧
    (AttributeValue.get_bool_or_type (.I32 7) =
      (AttributeValue.get_bool (.I32 7)).elim
        (.error (AttributeValue.I32 7).type_) Except.ok) ∧
    (toDirect (.String [1, 2])).get_string = (AttributeValue.String [1, 2]).get_string :=
  ⟨c10_attribute_getters.2.2.2.2.2.2.1 (.I64 5) 5, c10_attribute_getters.2.1 (.I32 7), c10_attribute_getters.2.2.2.2.2.2.2.2.2.2.2.2.2.2.2.2.2.2.2.2.2.2.2.2.2.2.2.2.2.2.2.2.2.2.2.2.2.2.2.2.2.2.2.2.2.2.2.2.2.2.2.2.2.2.2.2.2.2.2.2.2.2.2.2.1 (.String [1, 2])⟩

/-! ## C3: connection insertion indices -/

theorem aux_connloop_eq_indexed (strict : Bool) (cs : List FNode) (idx : Nat)
    (st : LoadState) :
    load_connections_loop strict cs idx st =
      conns_fold_indexed strict (enumFrom idx cs) st := by
  induction cs generalizing idx st with
  | nil => rfl
  | cons c rest ih =>
    cases h : (if c.name = "C" then add_connection strict st c idx else Except.ok st) with
    | error e => simp [load_connections_loop, conns_fold_indexed, enumFrom, h]
    | ok st1 => simp [load_connections_loop, conns_fold_indexed, enumFrom, h, ih]

theorem aux_conn_parse_index (attrs : List DirectAttributeValue) (i : Nat)
    (c : Conn) (h : Connection.load_from_attributes attrs i = .ok c) :
    c.index = i := by
  unfold Connection.load_from_attributes at h
  repeat' split at h
  all_goals cases h
  all_goals rfl

/-- C3.  The connections loop maintains a counter starting at 0 that is
incremented once per sibling of `Connections` — whether or not the sibling
is named `C` — and each `C` node's connection is decoded with
`insertion_index` equal to the counter value at that sibling, i.e. its
0-based position among all siblings. -/
theorem c3_connection_insertion_index :
    (∀ strict cs idx st, load_connections_loop strict cs idx st =
        conns_fold_indexed strict (enumFrom idx cs) st) ∧
    (∀ strict arena st cn, find_toplevel arena "Connections" = some cn →
        load_connections strict arena st =
          conns_fold_indexed strict (enumFrom 0 cn.children) st) ∧
    (∀ attrs i c, Connection.load_from_attributes attrs i = .ok c →
        c.index = i) := by
  refine ⟨fun s cs idx st => aux_connloop_eq_indexed s cs idx st, ?_,
    fun a i c h => aux_conn_parse_index a i c h⟩
  intro strict arena st cn h
  simp [load_connections, h, aux_connloop_eq_indexed]

/-- C3 witness: the theorem applied to the concrete arena `arenaDup` and to
a connection decoded at sibling position 1. -/
theorem c3_connection_insertion_index_witness :
    load_connections false arenaDup emptyLoadState =
      conns_fold_indexed false
        (enumFrom 0 (FNode.mk 102 "Connections" []
          [.mk 3 "C" connAttrsOO [], .mk 4 "C" connAttrsOO []]).children)
        emptyLoadState ∧
    (Conn.mk 42 0 .objectObject 1).index = 1 :=
  ⟨c3_connection_insertion_index.2.1 false arenaDup emptyLoadState _ rfl,
   c3_connection_insertion_index.2.2 connAttrsOO 1 ⟨42, 0, .objectObject, 1⟩
     (by decide)⟩

/-! ## Loader step inversion lemmas -/

theorem aux_add_object_ok (strict : Bool) (st : LoadState) (n : FNode)
    (r : LoadState) (h : add_object strict st n = .ok r) :
    r = st ∨ ∃ m, ObjectMeta.from_attributes n.attrs = .ok m ∧
      alookup st.object_ids m.id = none ∧
      alookup st.object_meta n.id = none ∧
      r = { st with object_ids := (m.id, n.id) :: st.object_ids,
                    object_meta := (n.id, m) :: st.object_meta } := by
  unfold add_object at h
  cases hp : ObjectMeta.from_attributes n.attrs with
  | error e =>
    simp only [hp, err_if_strict] at h
    split at h
    · cases h
    · cases h
      exact .inl rfl
  | ok m =>
    simp only [hp] at h
    cases hl1 : alookup st.object_ids m.id with
    | some v =>
      simp only [hl1, err_if_strict] at h
      split at h
      · cases h
      · cases h
        exact .inl rfl
    | none =>
      simp only [hl1] at h
      cases hl2 : alookup st.object_meta n.id with
      | some v =>
        simp only [hl2] at h
        cases h
      | none =>
        simp only [hl2] at h
        cases h
        exact .inr ⟨m, rfl, hl1, rfl, rfl⟩

theorem aux_add_object_true_ok (st : LoadState) (n : FNode) (r : LoadState)
    (h : add_object true st n = .ok r) :
    ∃ m, ObjectMeta.from_attributes n.attrs = .ok m ∧
      alookup st.object_ids m.id = none ∧
      alookup st.object_meta n.id = none ∧
      r = { st with object_ids := (m.id, n.id) :: st.object_ids,
                    object_meta := (n.id, m) :: st.object_meta } := by
  unfold add_object at h
  cases hp : ObjectMeta.from_attributes n.attrs with
  | error e =>
    simp [hp, err_if_strict] at h
  | ok m =>
    simp only [hp] at h
    cases hl1 : alookup st.object_ids m.id with
    | some v =>
      simp [hl1, err_if_strict] at h
    | none =>
      simp only [hl1] at h
      cases hl2 : alookup st.object_meta n.id with
      | some v =>
        simp only [hl2] at h
        cases h
      | none =>
        simp only [hl2] at h
        cases h
        exact ⟨m, rfl, hl1, rfl, rfl⟩

theorem aux_add_connection_ok_fields (strict : Bool) (st : LoadState)
    (n : FNode) (i : Nat) (r : LoadState)
    (h : add_connection strict st n i = .ok r) :
    r.object_ids = st.object_ids ∧ r.object_meta = st.object_meta ∧
      r.scenes = st.scenes := by
  unfold add_connection err_if_strict at h
  repeat' split at h
  all_goals cases h
  all_goals exact ⟨rfl, rfl, rfl⟩

theorem aux_connloop_fields (strict : Bool) (cs : List FNode) (idx : Nat)
    (st : LoadState) (r : LoadState)
    (h : load_connections_loop strict cs idx st = .ok r) :
    r.object_ids = st.object_ids ∧ r.object_meta = st.object_meta ∧
      r.scenes = st.scenes := by
  induction cs generalizing idx st with
  | nil =>
    cases h
    exact ⟨rfl, rfl, rfl⟩
  | cons c rest ih =>
    unfold load_connections_loop at h
    cases hstep : (if c.name = "C" then add_connection strict st c idx else Except.ok st) with
    | error e =>
      simp only [hstep] at h
      cases h
    | ok st1 =>
      simp only [hstep] at h
      obtain ⟨f1, f2, f3⟩ := ih (idx + 1) st1 h
      have hf : st1.object_ids = st.object_ids ∧ st1.object_meta = st.object_meta ∧
          st1.scenes = st.scenes := by
        by_cases hn : c.name = "C"
        · rw [if_pos hn] at hstep
          exact aux_add_connection_ok_fields strict st c idx st1 hstep
        · rw [if_neg hn] at hstep
          cases hstep
          exact ⟨rfl, rfl, rfl⟩
      exact ⟨f1.trans hf.1, f2.trans hf.2.1, f3.trans hf.2.2⟩

theorem aux_load_connections_fields (strict : Bool) (arena : List FNode)
    (st : LoadState) (r : LoadState)
    (h : load_connections strict arena st = .ok r) :
    r.object_ids = st.object_ids ∧ r.object_meta = st.object_meta ∧
      r.scenes = st.scenes := by
  unfold load_connections at h
  cases hf : find_toplevel arena "Connections" with
  | none =>
    simp only [hf] at h
    unfold err_if_strict at h
    split at h
    · cases h
    · cases h
      exact ⟨rfl, rfl, rfl⟩
  | some cn =>
    simp only [hf] at h
    exact aux_connloop_fields strict cn.children 0 st r h

/-! ## Registry invariants (C6) -/

theorem aux_add_object_inv (strict : Bool) (st : LoadState) (n : FNode)
    (r : LoadState) (h : add_object strict st n = .ok r)
    (h1 : (st.object_ids.map Prod.fst).Nodup)
    (h2 : st.object_ids.map Prod.snd = st.object_meta.map Prod.fst) :
    (r.object_ids.map Prod.fst).Nodup ∧
      r.object_ids.map Prod.snd = r.object_meta.map Prod.fst := by
  rcases aux_add_object_ok strict st n r h with rfl | ⟨m, hp, hl1, hl2, rfl⟩
  · exact ⟨h1, h2⟩
  · constructor
    · simp only [List.map_cons]
      exact List.nodup_cons.mpr ⟨(aux_alookup_none_iff _ _).mp hl1, h1⟩
    · simp [h2]

theorem aux_objloop_inv (strict : Bool) (ns : List FNode) (st : LoadState)
    (r : LoadState) (h : load_objects_loop strict ns st = .ok r)
    (h1 : (st.object_ids.map Prod.fst).Nodup)
    (h2 : st.object_ids.map Prod.snd = st.object_meta.map Prod.fst) :
    (r.object_ids.map Prod.fst).Nodup ∧
      r.object_ids.map Prod.snd = r.object_meta.map Prod.fst := by
  induction ns generalizing st with
  | nil =>
    cases h
    exact ⟨h1, h2⟩
  | cons n rest ih =>
    unfold load_objects_loop at h
    cases hstep : add_object strict st n with
    | error e =>
      simp only [hstep] at h
      cases h
    | ok st1 =>
      simp only [hstep] at h
      obtain ⟨g1, g2⟩ := aux_add_object_inv strict st n st1 hstep h1 h2
      exact ih st1 h g1 g2

theorem aux_docsloop_inv (strict : Bool) (ds : List FNode) (st : LoadState)
    (r : LoadState) (h : load_documents_loop strict ds st = .ok r)
    (h1 : (st.object_ids.map Prod.fst).Nodup)
    (h2 : st.object_ids.map Prod.snd = st.object_meta.map Prod.fst) :
    (r.object_ids.map Prod.fst).Nodup ∧
      r.object_ids.map Prod.snd = r.object_meta.map Prod.fst := by
  induction ds generalizing st with
  | nil =>
    cases h
    exact ⟨h1, h2⟩
  | cons d rest ih =>
    unfold load_documents_loop at h
    by_cases hn : d.name = "Document"
    · rw [if_pos hn] at h
      cases hstep : add_object strict st d with
      | error e =>
        simp only [hstep] at h
        cases h
      | ok st1 =>
        simp only [hstep] at h
        obtain ⟨g1, g2⟩ := aux_add_object_inv strict st d st1 hstep h1 h2
        cases hm : alookup st1.object_meta d.id with
        | none =>
          simp only [hm] at h
          cases h
        | some m =>
          simp only [hm] at h
          by_cases hs : m.subclass_sym = sceneBytes
          · rw [if_pos hs] at h
            cases hscene : SceneNodeData.load d with
            | error e =>
              simp only [hscene] at h
              unfold err_if_strict at h
              split at h
              · cases h
              · cases h
                exact ⟨g1, g2⟩
            | ok data =>
              simp only [hscene] at h
              exact ih _ h g1 g2
          · rw [if_neg hs] at h
            unfold err_if_strict at h
            split at h
            · cases h
            · cases h
              exact ⟨g1, g2⟩
    · rw [if_neg hn] at h
      exact ih st h h1 h2

theorem aux_load_objects_inv (strict : Bool) (arena : List FNode)
    (st : LoadState) (r : LoadState) (h : load_objects strict arena st = .ok r)
    (h1 : (st.object_ids.map Prod.fst).Nodup)
    (h2 : st.object_ids.map Prod.snd = st.object_meta.map Prod.fst) :
    (r.object_ids.map Prod.fst).Nodup ∧
      r.object_ids.map Prod.snd = r.object_meta.map Prod.fst := by
  unfold load_objects at h
  split at h
  · cases hf : find_toplevel arena "Objects" with
    | none =>
      simp only [hf] at h
      unfold err_if_strict at h
      split at h
      · cases h
      · cases h
        exact ⟨h1, h2⟩
    | some objs =>
      simp only [hf] at h
      cases hloop : load_objects_loop strict objs.children st with
      | error e =>
        simp only [hloop] at h
        cases h
      | ok st1 =>
        simp only [hloop] at h
        obtain ⟨g1, g2⟩ := aux_objloop_inv strict objs.children st st1 hloop h1 h2
        cases hd : find_toplevel arena "Documents" with
        | none =>
          simp only [hd] at h
          unfold err_if_strict at h
          split at h
          · cases h
          · cases h
            exact ⟨g1, g2⟩
        | some docs =>
          simp only [hd] at h
          exact aux_docsloop_inv strict docs.children st1 r h g1 g2
  · cases h

/-- C6.  In any successfully loaded document the object-id keys are
pairwise distinct (a second registration never overwrites the first), the
node-id values of the object-id index coincide — as lists, in order — with
the keys of the object-meta map, and `add_object` is atomic: any
non-failing invocation either leaves the state unchanged or inserts exactly
one entry into both maps. -/
theorem c6_registry_invariants :
    (∀ strict arena doc, load_document strict arena = .ok doc →
      (doc.object_ids.map Prod.fst).Nodup ∧
      doc.object_ids.map Prod.snd = doc.object_meta.map Prod.fst) ∧
    (∀ strict st n r, add_object strict st n = .ok r →
      r = st ∨ ∃ m, ObjectMeta.from_attributes n.attrs = .ok m ∧
        alookup st.object_ids m.id = none ∧
        alookup st.object_meta n.id = none ∧
        r = { st with object_ids := (m.id, n.id) :: st.object_ids,
                      object_meta := (n.id, m) :: st.object_meta }) := by
  constructor
  · intro strict arena doc h
    unfold load_document at h
    cases hobj : load_objects strict arena emptyLoadState with
    | error e =>
      simp only [hobj] at h
      cases h
    | ok st1 =>
      simp only [hobj] at h
      obtain ⟨g1, g2⟩ := aux_load_objects_inv strict arena emptyLoadState st1 hobj
        (by simp [emptyLoadState]) (by simp [emptyLoadState])
      obtain ⟨f1, f2, _⟩ := aux_load_connections_fields strict arena st1 doc h
      exact ⟨f1 ▸ g1, by rw [f1, f2]; exact g2⟩
  · exact fun strict st n r h => aux_add_object_ok strict st n r h

/-- C6 witness: the first conjunct of the theorem applied to the concrete
non-strict load of `arenaDup`, whose resulting document is spelled out. -/
theorem c6_registry_invariants_witness :
    ((LoadState.mk [(42, 1)] [(1, ⟨42, [0x41], [0x44], [0x58]⟩)] []
        [⟨42, 0, .objectObject, 0⟩]).object_ids.map Prod.fst).Nodup ∧
    (LoadState.mk [(42, 1)] [(1, ⟨42, [0x41], [0x44], [0x58]⟩)] []
        [⟨42, 0, .objectObject, 0⟩]).object_ids.map Prod.snd =
      (LoadState.mk [(42, 1)] [(1, ⟨42, [0x41], [0x44], [0x58]⟩)] []
        [⟨42, 0, .objectObject, 0⟩]).object_meta.map Prod.fst :=
  c6_registry_invariants.1 false arenaDup
    (LoadState.mk [(42, 1)] [(1, ⟨42, [0x41], [0x44], [0x58]⟩)] []
      [⟨42, 0, .objectObject, 0⟩]) (by decide)

/-! ## C2: missing Objects node -/

/-- C2 (amended).  When the arena root has no `Objects` child, strict
loading returns the `NodeNotFound` structural error; non-strict loading
logs it and `load_objects` returns immediately, so the Documents pass is
skipped entirely: a successful non-strict load of such an arena registers
no objects and loads no scenes, even when `Documents/Document` entries
exist. -/
theorem c2_missing_objects :
    (∀ arena, find_toplevel arena "Objects" = none →
      load_document true arena = .error (.err (.nodeNotFound "Objects"))) ∧
    (∀ arena doc, find_toplevel arena "Objects" = none →
      load_document false arena = .ok doc →
      doc.object_ids = [] ∧ doc.object_meta = [] ∧ doc.scenes = []) := by
  constructor
  · intro arena h
    have hobj : load_objects true arena emptyLoadState =
        .error (.err (.nodeNotFound "Objects")) := by
      simp [load_objects, h, err_if_strict, emptyLoadState]
    simp [load_document, hobj]
  · intro arena doc h hload
    have hobj : load_objects false arena emptyLoadState = .ok emptyLoadState := by
      simp [load_objects, h, err_if_strict, emptyLoadState]
    unfold load_document at hload
    simp only [hobj] at hload
    exact aux_load_connections_fields false arena emptyLoadState doc hload

/-- C2 counterexample: the arena `arenaNoObjects` has no `Objects` child
but a well-formed `Documents/Document` scene entry; its non-strict load
succeeds with an empty document — the `Document` node is not registered
and its scene is not loaded, contradicting the claim that Pass B runs
independently of Pass A's outcome. -/
theorem c2_missing_objects_counterexample :
    load_document false arenaNoObjects = .ok emptyLoadState := by
  decide

/-- C2 witness: the theorem applied at the concrete arena
`arenaNoObjects`. -/
theorem c2_missing_objects_witness :
    load_document true arenaNoObjects = .error (.err (.nodeNotFound "Objects")) ∧
    (emptyLoadState.object_ids = [] ∧ emptyLoadState.object_meta = [] ∧
      emptyLoadState.scenes = []) :=
  ⟨c2_missing_objects.1 arenaNoObjects rfl,
   c2_missing_objects.2 arenaNoObjects emptyLoadState rfl (by decide)⟩

/-! ## Non-strict loading refines the first-seen-wins description -/

theorem aux_alookup_cons_ne {κ β : Type} [DecidableEq κ] (k0 : κ) (v : β)
    (l : List (κ × β)) (k : κ) (hne : k0 ≠ k) :
    alookup ((k0, v) :: l) k = alookup l k := by
  simp [alookup, hne]

theorem aux_add_object_false_regStep (st : LoadState) (n : FNode)
    (r : LoadState) (h : add_object false st n = .ok r) :
    r.object_ids = regStep st.object_ids n ∧ r.scenes = st.scenes ∧
      r.graph = st.graph := by
  unfold add_object at h
  cases hp : ObjectMeta.from_attributes n.attrs with
  | error e =>
    simp [hp, err_if_strict] at h
    subst h
    simp [regStep, hp]
  | ok m =>
    simp only [hp] at h
    cases hl1 : alookup st.object_ids m.id with
    | some v =>
      simp [hl1, err_if_strict] at h
      subst h
      simp [regStep, hp, hl1]
    | none =>
      simp only [hl1] at h
      cases hl2 : alookup st.object_meta n.id with
      | some v =>
        simp only [hl2] at h
        cases h
      | none =>
        simp only [hl2] at h
        cases h
        simp [regStep, hp, hl1]

theorem aux_objloop_false (ns : List FNode) (st r : LoadState)
    (h : load_objects_loop false ns st = .ok r) :
    r.object_ids = ns.foldl regStep st.object_ids ∧ r.scenes = st.scenes ∧
      r.graph = st.graph := by
  induction ns generalizing st with
  | nil =>
    cases h
    exact ⟨rfl, rfl, rfl⟩
  | cons n rest ih =>
    unfold load_objects_loop at h
    cases hstep : add_object false st n with
    | error e =>
      simp only [hstep] at h
      cases h
    | ok st1 =>
      simp only [hstep] at h
      obtain ⟨f1, f2, f3⟩ := ih st1 h
      obtain ⟨g1, g2, g3⟩ := aux_add_object_false_regStep st n st1 hstep
      refine ⟨?_, f2.trans g2, f3.trans g3⟩
      rw [List.foldl_cons, f1, g1]

theorem aux_add_object_meta_keys (strict : Bool) (st : LoadState) (n : FNode)
    (r : LoadState) (h : add_object strict st n = .ok r) (k : Nat)
    (hk : k ∈ r.object_meta.map Prod.fst) :
    k = n.id ∨ k ∈ st.object_meta.map Prod.fst := by
  rcases aux_add_object_ok strict st n r h with rfl | ⟨m, _, _, _, rfl⟩
  · exact .inr hk
  · simp only [List.map_cons] at hk
    exact List.mem_cons.mp hk

theorem aux_objloop_meta_keys (strict : Bool) (ns : List FNode)
    (st r : LoadState) (h : load_objects_loop strict ns st = .ok r) (k : Nat)
    (hk : k ∈ r.object_meta.map Prod.fst) :
    k ∈ ns.map FNode.id ∨ k ∈ st.object_meta.map Prod.fst := by
  induction ns generalizing st with
  | nil =>
    cases h
    exact .inr hk
  | cons n rest ih =>
    unfold load_objects_loop at h
    cases hstep : add_object strict st n with
    | error e =>
      simp only [hstep] at h
      cases h
    | ok st1 =>
      simp only [hstep] at h
      rcases ih st1 h with hin | hin
      · exact .inl (List.mem_cons_of_mem _ hin)
      · rcases aux_add_object_meta_keys strict st n st1 hstep k hin with heq | hmem
        · exact .inl (heq ▸ List.mem_cons_self _ _)
        · exact .inr hmem

theorem aux_connloop_false (cs : List FNode) (idx : Nat) (st r : LoadState)
    (h : load_connections_loop false cs idx st = .ok r) :
    r.graph = (enumFrom idx cs).foldl connStep st.graph := by
  induction cs generalizing idx st with
  | nil =>
    cases h
    rfl
  | cons c rest ih =>
    unfold load_connections_loop at h
    by_cases hn : c.name = "C"
    · rw [if_pos hn] at h
      cases hstep : add_connection false st c idx with
      | error e =>
        simp only [hstep] at h
        cases h
      | ok st1 =>
        simp only [hstep] at h
        have hg := ih (idx + 1) st1 h
        unfold add_connection at hstep
        cases hp : Connection.load_from_attributes c.attrs idx with
        | error e =>
          simp only [hp] at hstep
          cases hstep
        | ok conn =>
          simp only [hp] at hstep
          cases hew : edge_weight st.graph conn.source_id conn.destination_id with
          | some c0 =>
            simp [hew, err_if_strict] at hstep
            subst hstep
            rw [hg]
            simp [enumFrom, List.foldl_cons, connStep, hn, hp, hew]
          | none =>
            simp only [hew] at hstep
            cases hstep
            rw [hg]
            simp [enumFrom, List.foldl_cons, connStep, hn, hp, hew]
    · rw [if_neg hn] at h
      have h2 : load_connections_loop false rest (idx + 1) st = .ok r := h
      rw [ih (idx + 1) st h2]
      simp [enumFrom, List.foldl_cons, connStep, hn]

theorem aux_docsloop_false (ds : List FNode) (st r : LoadState)
    (h : load_documents_loop false ds st = .ok r)
    (hnd : ((ds.filter fun c => decide (c.name = "Document")).map FNode.id).Nodup)
    (hfresh : ∀ d ∈ ds, d.name = "Document" → alookup st.object_meta d.id = none) :
    r.object_ids = (docsProcessed ds).foldl regStep st.object_ids ∧
      r.graph = st.graph := by
  induction ds generalizing st with
  | nil =>
    cases h
    exact ⟨rfl, rfl⟩
  | cons d rest ih =>
    unfold load_documents_loop at h
    by_cases hn : d.name = "Document"
    · rw [if_pos hn] at h
      cases hstep : add_object false st d with
      | error e =>
        simp only [hstep] at h
        cases h
      | ok st1 =>
        simp only [hstep] at h
        rcases aux_add_object_ok false st d st1 hstep with rfl | ⟨m, hp, hl1, hl2, rfl⟩
        · simp only [hfresh d (List.mem_cons_self d rest) hn] at h
          cases h
        · have hm : alookup ({ st with
              object_ids := (m.id, d.id) :: st.object_ids,
              object_meta := (d.id, m) :: st.object_meta } : LoadState).object_meta d.id
              = some m := by
            simp [alookup]
          simp only [hm] at h
          by_cases hs : m.subclass_sym = sceneBytes
          · rw [if_pos hs] at h
            cases hscene : SceneNodeData.load d with
            | error e =>
              simp [hscene, err_if_strict] at h
              subst h
              constructor
              · simp [docsProcessed, hn, hp, hs, hscene, regStep, hl1]
              · rfl
            | ok data =>
              simp only [hscene] at h
              have hnd2 := hnd
              rw [List.filter_cons] at hnd2
              simp [hn] at hnd2
              have hfresh' : ∀ d2 ∈ rest, d2.name = "Document" →
                  alookup ({ st with
                    object_ids := (m.id, d.id) :: st.object_ids,
                    object_meta := (d.id, m) :: st.object_meta,
                    scenes := insertScene st.scenes d.id data } : LoadState).object_meta
                    d2.id = none := by
                intro d2 hd2 hname2
                have hne : d.id ≠ d2.id :=
                  fun hcontra => (hnd2.1 d2 hd2 hname2) hcontra.symm
                have hbase : alookup st.object_meta d2.id = none :=
                  hfresh d2 (List.mem_cons_of_mem d hd2) hname2
                simpa [aux_alookup_cons_ne d.id m st.object_meta d2.id hne] using hbase
              obtain ⟨k1, k2⟩ := ih _ h hnd2.2 hfresh'
              constructor
              · rw [k1]
                have hreduce : docsProcessed (d :: rest) = d :: docsProcessed rest := by
                  simp [docsProcessed, hn, hp, hs, hscene]
                rw [hreduce, List.foldl_cons]
                simp [regStep, hp, hl1]
              · exact k2
          · rw [if_neg hs] at h
            simp [err_if_strict] at h
            subst h
            constructor
            · simp [docsProcessed, hn, hp, hs, regStep, hl1]
            · rfl
    · rw [if_neg hn] at h
      have hnd' : ((rest.filter fun c => decide (c.name = "Document")).map
          FNode.id).Nodup := by
        rw [List.filter_cons] at hnd
        simpa [hn] using hnd
      have hfresh' : ∀ d2 ∈ rest, d2.name = "Document" →
          alookup st.object_meta d2.id = none :=
        fun d2 hd2 hname2 => hfresh d2 (List.mem_cons_of_mem d hd2) hname2
      obtain ⟨k1, k2⟩ := ih st h hnd' hfresh'
      exact ⟨by rw [k1]; simp [docsProcessed, hn], k2⟩

theorem aux_load_objects_start (strict : Bool) (arena : List FNode) :
    load_objects strict arena emptyLoadState =
      match find_toplevel arena "Objects" with
      | none => err_if_strict strict (.nodeNotFound "Objects") emptyLoadState
      | some objs =>
        match load_objects_loop strict objs.children emptyLoadState with
        | .error e => .error e
        | .ok st1 =>
          match find_toplevel arena "Documents" with
          | none => err_if_strict strict (.nodeNotFound "Documents") st1
          | some docs => load_documents_loop strict docs.children st1 := rfl

theorem aux_load_false_refines (arena : List FNode) (doc : LoadState)
    (hN : (visitedIds arena).Nodup)
    (h : load_document false arena = .ok doc) :
    doc.object_ids = specRegs arena ∧ doc.graph = specConns arena := by
  unfold load_document at h
  cases hobj : load_objects false arena emptyLoadState with
  | error e =>
    simp only [hobj] at h
    cases h
  | ok st1 =>
    simp only [hobj] at h
    have hst1 : st1.object_ids = specRegs arena ∧ st1.graph = [] := by
      rw [aux_load_objects_start] at hobj
      cases hO : find_toplevel arena "Objects" with
      | none =>
        simp only [hO] at hobj
        simp [err_if_strict, emptyLoadState] at hobj
        subst hobj
        simp [specRegs, hO, emptyLoadState]
      | some objs =>
        simp only [hO] at hobj
        cases hloop : load_objects_loop false objs.children emptyLoadState with
        | error e =>
          simp only [hloop] at hobj
          cases hobj
        | ok stA =>
          simp only [hloop] at hobj
          obtain ⟨a1, a2, a3⟩ := aux_objloop_false objs.children emptyLoadState stA hloop
          cases hD : find_toplevel arena "Documents" with
          | none =>
            simp only [hD] at hobj
            simp [err_if_strict] at hobj
            subst hobj
            constructor
            · rw [a1]
              simp [specRegs, hO, hD, emptyLoadState]
            · rw [a3]
              rfl
          | some docs =>
            simp only [hD] at hobj
            have hvis : ((objs.children.map FNode.id) ++
                ((docs.children.filter fun c => decide (c.name = "Document")).map
                  FNode.id)).Nodup := by
              have : visitedIds arena = (objs.children.map FNode.id) ++
                  ((docs.children.filter fun c => decide (c.name = "Document")).map
                    FNode.id) := by
                simp [visitedIds, objectNodes, objsChildren, docChildren, hO, hD]
              rwa [this] at hN
            rw [List.nodup_append] at hvis
            have hfresh : ∀ d ∈ docs.children, d.name = "Document" →
                alookup stA.object_meta d.id = none := by
              intro d hd hname
              rw [aux_alookup_none_iff]
              intro hmem
              rcases aux_objloop_meta_keys false objs.children emptyLoadState stA
                  hloop d.id hmem with hin | hin
              · have hdoc : d.id ∈ ((docs.children.filter
                    fun c => decide (c.name = "Document")).map FNode.id) :=
                  List.mem_map_of_mem FNode.id
                    (List.mem_filter.mpr ⟨hd, by simp [hname]⟩)
                exact hvis.2.2 hin hdoc
              · simp [emptyLoadState] at hin
            obtain ⟨k1, k2⟩ := aux_docsloop_false docs.children stA st1 hobj
              hvis.2.1 hfresh
            constructor
            · rw [k1, a1]
              simp [specRegs, hO, hD, emptyLoadState]
            · rw [k2, a3]
              rfl
    cases hC : find_toplevel arena "Connections" with
    | none =>
      unfold load_connections at h
      simp only [hC] at h
      simp [err_if_strict] at h
      subst h
      refine ⟨hst1.1, ?_⟩
      rw [hst1.2]
      simp [specConns, hC]
    | some cn =>
      unfold load_connections at h
      simp only [hC] at h
      obtain ⟨f1, _, _⟩ := aux_connloop_fields false cn.children 0 st1 doc h
      have hg := aux_connloop_false cn.children 0 st1 doc h
      refine ⟨f1.trans hst1.1, ?_⟩
      rw [hg, hst1.2]
      simp [specConns, hC]

/-! ## Strict-mode loading: inversion, freshness and absence of traps -/

theorem aux_parse_id (n : FNode) (m : ObjectMeta)
    (h : ObjectMeta.from_attributes n.attrs = .ok m) :
    firstAttrI64 n = some m.id := by
  unfold ObjectMeta.from_attributes at h
  unfold firstAttrI64
  repeat' split at h
  all_goals cases h
  all_goals simp_all

theorem aux_add_object_true_outcomes (st : LoadState) (n : FNode)
    (hfresh : alookup st.object_meta n.id = none) :
    (∃ r, add_object true st n = .ok r) ∨
      (∃ e, add_object true st n = .error (.err e)) := by
  cases hp : ObjectMeta.from_attributes n.attrs with
  | error e =>
    refine .inr ⟨.objectMeta e, ?_⟩
    simp [add_object, hp, err_if_strict]
  | ok m =>
    cases hl1 : alookup st.object_ids m.id with
    | some v =>
      refine .inr ⟨.duplicateObjectId m.id, ?_⟩
      simp [add_object, hp, hl1, err_if_strict]
    | none =>
      refine .inl ⟨{ st with
        object_ids := (m.id, n.id) :: st.object_ids,
        object_meta := (n.id, m) :: st.object_meta }, ?_⟩
      simp [add_object, hp, hl1, hfresh]

theorem aux_objloop_mono (strict : Bool) (ns : List FNode) (st r : LoadState)
    (h : load_objects_loop strict ns st = .ok r) :
    ∀ x ∈ st.object_ids, x ∈ r.object_ids := by
  induction ns generalizing st with
  | nil =>
    cases h
    exact fun x hx => hx
  | cons n rest ih =>
    unfold load_objects_loop at h
    cases hstep : add_object strict st n with
    | error e =>
      simp only [hstep] at h
      cases h
    | ok st1 =>
      simp only [hstep] at h
      intro x hx
      refine ih st1 h x ?_
      rcases aux_add_object_ok strict st n st1 hstep with rfl | ⟨m, _, _, _, rfl⟩
      · exact hx
      · exact List.mem_cons_of_mem _ hx

theorem aux_objloop_true_mem (ns : List FNode) (st r : LoadState)
    (h : load_objects_loop true ns st = .ok r) :
    ∀ n ∈ ns, ∃ m, ObjectMeta.from_attributes n.attrs = .ok m ∧
      (m.id, n.id) ∈ r.object_ids := by
  induction ns generalizing st with
  | nil =>
    intro n hn
    cases hn
  | cons n0 rest ih =>
    unfold load_objects_loop at h
    cases hstep : add_object true st n0 with
    | error e =>
      simp only [hstep] at h
      cases h
    | ok st1 =>
      simp only [hstep] at h
      intro n hn
      rcases List.mem_cons.mp hn with rfl | hn2
      · obtain ⟨m, hp, _, _, rfl⟩ := aux_add_object_true_ok st n st1 hstep
        exact ⟨m, hp, aux_objloop_mono true rest _ r h (m.id, n.id)
          (List.mem_cons_self _ _)⟩
      · exact ih st1 h n hn2

theorem aux_objloop_true_fresh (ns : List FNode) (st r : LoadState)
    (h : load_objects_loop true ns st = .ok r) :
    ∀ n ∈ ns, ∀ m, ObjectMeta.from_attributes n.attrs = .ok m →
      alookup st.object_ids m.id = none := by
  induction ns generalizing st with
  | nil =>
    intro n hn
    cases hn
  | cons n0 rest ih =>
    unfold load_objects_loop at h
    cases hstep : add_object true st n0 with
    | error e =>
      simp only [hstep] at h
      cases h
    | ok st1 =>
      simp only [hstep] at h
      intro n hn m hm
      rcases List.mem_cons.mp hn with rfl | hn2
      · obtain ⟨m0, hp, hl1, _, rfl⟩ := aux_add_object_true_ok st n st1 hstep
        rw [hp] at hm
        cases hm
        exact hl1
      · have h1 := ih st1 h n hn2 m hm
        obtain ⟨m0, hp0, hl10, _, rfl⟩ := aux_add_object_true_ok st n0 st1 hstep
        cases hv : alookup st.object_ids m.id with
        | none => rfl
        | some v =>
          exact absurd h1 (by
            have hmem : (m.id, v) ∈ ((m0.id, n0.id) :: st.object_ids) :=
              List.mem_cons_of_mem _ (aux_alookup_some_mem hv)
            exact aux_mem_alookup_ne_none hmem)

theorem aux_objloop_true_noTrap (ns : List FNode) (st : LoadState)
    (hnd : (ns.map FNode.id).Nodup)
    (hfresh : ∀ n ∈ ns, alookup st.object_meta n.id = none) :
    (∃ r, load_objects_loop true ns st = .ok r) ∨
      (∃ e, load_objects_loop true ns st = .error (.err e)) := by
  induction ns generalizing st with
  | nil => exact .inl ⟨st, rfl⟩
  | cons n rest ih =>
    rcases aux_add_object_true_outcomes st n
        (hfresh n (List.mem_cons_self n rest)) with ⟨st1, hok⟩ | ⟨e, herr⟩
    · obtain ⟨m, hp, hl1, hl2, rfl⟩ := aux_add_object_true_ok st n st1 hok
      have hnd' : (rest.map FNode.id).Nodup := (List.nodup_cons.mp (by simpa using hnd)).2
      have hfresh' : ∀ n2 ∈ rest, alookup
          ({ st with
            object_ids := (m.id, n.id) :: st.object_ids,
            object_meta := (n.id, m) :: st.object_meta } : LoadState).object_meta
          n2.id = none := by
        intro n2 hn2
        have hne : n.id ≠ n2.id := by
          intro hcontra
          exact (List.nodup_cons.mp (by simpa using hnd)).1
            (hcontra ▸ List.mem_map_of_mem FNode.id hn2)
        simpa [aux_alookup_cons_ne n.id m st.object_meta n2.id hne] using
          hfresh n2 (List.mem_cons_of_mem n hn2)
      rcases ih _ hnd' hfresh' with ⟨r, hr⟩ | ⟨e, he⟩
      · exact .inl ⟨r, by simp [load_objects_loop, hok, hr]⟩
      · exact .inr ⟨e, by simp [load_objects_loop, hok, he]⟩
    · exact .inr ⟨e, by simp [load_objects_loop, herr]⟩

theorem aux_docsloop_true_cons_inv (d : FNode) (rest : List FNode)
    (st r : LoadState) (hn : d.name = "Document")
    (h : load_documents_loop true (d :: rest) st = .ok r) :
    ∃ m data, ObjectMeta.from_attributes d.attrs = .ok m ∧
      alookup st.object_ids m.id = none ∧
      m.subclass_sym = sceneBytes ∧
      SceneNodeData.load d = .ok data ∧
      load_documents_loop true rest
        { st with
          object_ids := (m.id, d.id) :: st.object_ids,
          object_meta := (d.id, m) :: st.object_meta,
          scenes := insertScene st.scenes d.id data } = .ok r := by
  unfold load_documents_loop at h
  rw [if_pos hn] at h
  cases hstep : add_object true st d with
  | error e =>
    simp only [hstep] at h
    cases h
  | ok st1 =>
    simp only [hstep] at h
    obtain ⟨m, hp, hl1, hl2, rfl⟩ := aux_add_object_true_ok st d st1 hstep
    have hm : alookup ({ st with
        object_ids := (m.id, d.id) :: st.object_ids,
        object_meta := (d.id, m) :: st.object_meta } : LoadState).object_meta d.id
        = some m := by
      simp [alookup]
    simp only [hm] at h
    by_cases hs : m.subclass_sym = sceneBytes
    · rw [if_pos hs] at h
      cases hscene : SceneNodeData.load d with
      | error e =>
        simp [hscene, err_if_strict] at h
      | ok data =>
        simp only [hscene] at h
        exact ⟨m, data, hp, hl1, hs, rfl, h⟩
    · rw [if_neg hs] at h
      simp [err_if_strict] at h

theorem aux_docsloop_not_document (d : FNode) (rest : List FNode)
    (st : LoadState) (strict : Bool) (hn : ¬ d.name = "Document") :
    load_documents_loop strict (d :: rest) st =
      load_documents_loop strict rest st := by
  unfold load_documents_loop
  rw [if_neg hn]
  cases rest <;> rfl

theorem aux_docsloop_mono (strict : Bool) (ds : List FNode) (st r : LoadState)
    (h : load_documents_loop strict ds st = .ok r) :
    ∀ x ∈ st.object_ids, x ∈ r.object_ids := by
  induction ds generalizing st with
  | nil =>
    cases h
    exact fun x hx => hx
  | cons d rest ih =>
    unfold load_documents_loop at h
    by_cases hn : d.name = "Document"
    · rw [if_pos hn] at h
      cases hstep : add_object strict st d with
      | error e =>
        simp only [hstep] at h
        cases h
      | ok st1 =>
        simp only [hstep] at h
        have hmono1 : ∀ x ∈ st.object_ids, x ∈ st1.object_ids := by
          rcases aux_add_object_ok strict st d st1 hstep with rfl | ⟨m, _, _, _, rfl⟩
          · exact fun x hx => hx
          · exact fun x hx => List.mem_cons_of_mem _ hx
        cases hm : alookup st1.object_meta d.id with
        | none =>
          simp only [hm] at h
          cases h
        | some m =>
          simp only [hm] at h
          by_cases hs : m.subclass_sym = sceneBytes
          · rw [if_pos hs] at h
            cases hscene : SceneNodeData.load d with
            | error e =>
              simp only [hscene] at h
              unfold err_if_strict at h
              split at h
              · cases h
              · cases h
                exact hmono1
            | ok data =>
              simp only [hscene] at h
              exact fun x hx => ih _ h x (hmono1 x hx)
          · rw [if_neg hs] at h
            unfold err_if_strict at h
            split at h
            · cases h
            · cases h
              exact hmono1
    · rw [if_neg hn] at h
      exact ih st h

theorem aux_docsloop_true_mem (ds : List FNode) (st r : LoadState)
    (h : load_documents_loop true ds st = .ok r) :
    ∀ d ∈ ds, d.name = "Document" →
      ∃ m, ObjectMeta.from_attributes d.attrs = .ok m ∧
        (m.id, d.id) ∈ r.object_ids ∧ m.subclass_sym = sceneBytes := by
  induction ds generalizing st with
  | nil =>
    intro d hd
    cases hd
  | cons d0 rest ih =>
    intro d hd hname
    by_cases hn0 : d0.name = "Document"
    · obtain ⟨m, data, hp, hl1, hs, hscene, hloop⟩ :=
        aux_docsloop_true_cons_inv d0 rest st r hn0 h
      rcases List.mem_cons.mp hd with rfl | hd2
      · exact ⟨m, hp, aux_docsloop_mono true rest _ r hloop (m.id, d.id)
          (List.mem_cons_self _ _), hs⟩
      · exact ih _ hloop d hd2 hname
    · rw [aux_docsloop_not_document d0 rest st true hn0] at h
      rcases List.mem_cons.mp hd with rfl | hd2
      · exact absurd hname hn0
      · exact ih st h d hd2 hname

theorem aux_docsloop_true_fresh (ds : List FNode) (st r : LoadState)
    (h : load_documents_loop true ds st = .ok r) :
    ∀ d ∈ ds, d.name = "Document" →
      ∀ m, ObjectMeta.from_attributes d.attrs = .ok m →
        alookup st.object_ids m.id = none := by
  induction ds generalizing st with
  | nil =>
    intro d hd
    cases hd
  | cons d0 rest ih =>
    intro d hd hname m hm
    by_cases hn0 : d0.name = "Document"
    · obtain ⟨m0, data, hp0, hl10, hs0, hscene0, hloop⟩ :=
        aux_docsloop_true_cons_inv d0 rest st r hn0 h
      rcases List.mem_cons.mp hd with rfl | hd2
      · rw [hp0] at hm
        cases hm
        exact hl10
      · have h1 := ih _ hloop d hd2 hname m hm
        cases hv : alookup st.object_ids m.id with
        | none => rfl
        | some v =>
          exact absurd h1 (by
            have hmem : (m.id, v) ∈ ((m0.id, d0.id) :: st.object_ids) :=
              List.mem_cons_of_mem _ (aux_alookup_some_mem hv)
            exact aux_mem_alookup_ne_none hmem)
    · rw [aux_docsloop_not_document d0 rest st true hn0] at h
      rcases List.mem_cons.mp hd with rfl | hd2
      · exact absurd hname hn0
      · exact ih st h d hd2 hname m hm

theorem aux_docsloop_true_noTrap (ds : List FNode) (st : LoadState)
    (hnd : ((ds.filter fun c => decide (c.name = "Document")).map FNode.id).Nodup)
    (hfresh : ∀ d ∈ ds, d.name = "Document" → alookup st.object_meta d.id = none) :
    (∃ r, load_documents_loop true ds st = .ok r) ∨
      (∃ e, load_documents_loop true ds st = .error (.err e)) := by
  induction ds generalizing st with
  | nil => exact .inl ⟨st, rfl⟩
  | cons d rest ih =>
    by_cases hn : d.name = "Document"
    · rcases aux_add_object_true_outcomes st d
          (hfresh d (List.mem_cons_self d rest) hn) with ⟨st1, hok⟩ | ⟨e, herr⟩
      · obtain ⟨m, hp, hl1, hl2, rfl⟩ := aux_add_object_true_ok st d st1 hok
        have hm : alookup ({ st with
            object_ids := (m.id, d.id) :: st.object_ids,
            object_meta := (d.id, m) :: st.object_meta } : LoadState).object_meta d.id
            = some m := by
          simp [alookup]
        by_cases hs : m.subclass_sym = sceneBytes
        · cases hscene : SceneNodeData.load d with
          | error e =>
            refine .inr ⟨.scene e, ?_⟩
            unfold load_documents_loop
            rw [if_pos hn]
            simp [hok, hm, hs, hscene, err_if_strict]
          | ok data =>
            have hnd2 := hnd
            rw [List.filter_cons] at hnd2
            simp [hn] at hnd2
            have hfresh' : ∀ d2 ∈ rest, d2.name = "Document" →
                alookup ({ st with
                  object_ids := (m.id, d.id) :: st.object_ids,
                  object_meta := (d.id, m) :: st.object_meta,
                  scenes := insertScene st.scenes d.id data } : LoadState).object_meta
                  d2.id = none := by
              intro d2 hd2 hname2
              have hne : d.id ≠ d2.id :=
                fun hcontra => (hnd2.1 d2 hd2 hname2) hcontra.symm
              simpa [aux_alookup_cons_ne d.id m st.object_meta d2.id hne] using
                hfresh d2 (List.mem_cons_of_mem d hd2) hname2
            have hcompute : load_documents_loop true (d :: rest) st =
                load_documents_loop true rest { st with
                  object_ids := (m.id, d.id) :: st.object_ids,
                  object_meta := (d.id, m) :: st.object_meta,
                  scenes := insertScene st.scenes d.id data } := by
              unfold load_documents_loop
              rw [if_pos hn]
              simp only [hok, hm, hs, if_pos, hscene]
              cases rest <;> rfl
            rcases ih _ hnd2.2 hfresh' with ⟨r, hr⟩ | ⟨e, he⟩
            · exact .inl ⟨r, by rw [hcompute]; exact hr⟩
            · exact .inr ⟨e, by rw [hcompute]; exact he⟩
        · refine .inr ⟨.unexpectedSubclass, ?_⟩
          unfold load_documents_loop
          rw [if_pos hn]
          simp [hok, hm, hs, err_if_strict]
      · refine .inr ⟨e, ?_⟩
        unfold load_documents_loop
        rw [if_pos hn]
        simp [herr]
    · rw [aux_docsloop_not_document d rest st true hn]
      have hnd' : ((rest.filter fun c => decide (c.name = "Document")).map
          FNode.id).Nodup := by
        rw [List.filter_cons] at hnd
        simpa [hn] using hnd
      exact ih st hnd'
        (fun d2 hd2 hname2 => hfresh d2 (List.mem_cons_of_mem d hd2) hname2)

theorem aux_get2_split {α : Type} (l : List α) (i j : Nat) (a b : α)
    (hij : i < j) (hga : l.get? i = some a) (hgb : l.get? j = some b) :
    ∃ u1 u2, l = u1 ++ a :: u2 ∧ b ∈ u2 := by
  induction l generalizing i j with
  | nil => cases hga
  | cons x t ih =>
    cases i with
    | zero =>
      cases j with
      | zero => exact absurd hij (lt_irrefl 0)
      | succ j2 =>
        injection hga with hga
        subst hga
        exact ⟨[], t, rfl, List.get?_mem hgb⟩
    | succ i2 =>
      cases j with
      | zero => exact absurd hij (by omega)
      | succ j2 =>
        obtain ⟨u1, u2, hl, hb⟩ := ih i2 j2 (by omega) hga hgb
        exact ⟨x :: u1, u2, by rw [List.cons_append, ← hl], hb⟩

theorem aux_filter_split {α : Type} (p : α → Bool) (l : List α) (t1 t2 : List α)
    (a : α) (h : l.filter p = t1 ++ a :: t2) :
    ∃ u1 u2, l = u1 ++ a :: u2 ∧ u2.filter p = t2 := by
  induction l generalizing t1 with
  | nil => simp at h
  | cons x t ih =>
    rw [List.filter_cons] at h
    by_cases hp : p x = true
    · rw [if_pos hp] at h
      cases t1 with
      | nil =>
        injection h with h1 h2
        subst h1
        exact ⟨[], t, rfl, h2⟩
      | cons y t1b =>
        injection h with h1 h2
        subst h1
        obtain ⟨u1, u2, hl, hf⟩ := ih t1b h2
        exact ⟨x :: u1, u2, by rw [List.cons_append, ← hl], hf⟩
    · rw [if_neg hp] at h
      obtain ⟨u1, u2, hl, hf⟩ := ih t1 h
      exact ⟨x :: u1, u2, by rw [List.cons_append, ← hl], hf⟩

theorem aux_objloop_true_pair2 (u1 : List FNode) (a : FNode) (u2 : List FNode)
    (st r : LoadState) (h : load_objects_loop true (u1 ++ a :: u2) st = .ok r)
    (b : FNode) (hb : b ∈ u2) (ma mb : ObjectMeta)
    (hpa : ObjectMeta.from_attributes a.attrs = .ok ma)
    (hpb : ObjectMeta.from_attributes b.attrs = .ok mb) :
    ma.id ≠ mb.id := by
  induction u1 generalizing st with
  | nil =>
    rw [List.nil_append] at h
    unfold load_objects_loop at h
    cases hstep : add_object true st a with
    | error e =>
      simp only [hstep] at h
      cases h
    | ok st1 =>
      simp only [hstep] at h
      obtain ⟨m0, hp0, hl10, _, rfl⟩ := aux_add_object_true_ok st a st1 hstep
      rw [hpa] at hp0
      cases hp0
      intro heq
      have hfresh := aux_objloop_true_fresh u2 _ r h b hb mb hpb
      rw [← heq] at hfresh
      exact (aux_mem_alookup_ne_none (List.mem_cons_self _ _)) hfresh
  | cons x t ih =>
    rw [List.cons_append] at h
    unfold load_objects_loop at h
    cases hstep : add_object true st x with
    | error e =>
      simp only [hstep] at h
      cases h
    | ok st1 =>
      simp only [hstep] at h
      exact ih st1 h

theorem aux_docsloop_true_pair2 (u1 : List FNode) (a : FNode) (u2 : List FNode)
    (st r : LoadState)
    (h : load_documents_loop true (u1 ++ a :: u2) st = .ok r)
    (ha : a.name = "Document") (b : FNode) (hb : b ∈ u2)
    (hbn : b.name = "Document") (ma mb : ObjectMeta)
    (hpa : ObjectMeta.from_attributes a.attrs = .ok ma)
    (hpb : ObjectMeta.from_attributes b.attrs = .ok mb) :
    ma.id ≠ mb.id := by
  induction u1 generalizing st with
  | nil =>
    rw [List.nil_append] at h
    obtain ⟨m, data, hp, hl1, hs, hscene, hloop⟩ :=
      aux_docsloop_true_cons_inv a u2 st r ha h
    rw [hpa] at hp
    cases hp
    intro heq
    have hfresh := aux_docsloop_true_fresh u2 _ r hloop b hb hbn mb hpb
    rw [← heq] at hfresh
    exact (aux_mem_alookup_ne_none (List.mem_cons_self _ _)) hfresh
  | cons x t ih =>
    rw [List.cons_append] at h
    by_cases hxn : x.name = "Document"
    · obtain ⟨m, data, hp, hl1, hs, hscene, hloop⟩ :=
        aux_docsloop_true_cons_inv x (t ++ a :: u2) st r hxn h
      exact ih _ hloop
    · rw [aux_docsloop_not_document x _ st true hxn] at h
      exact ih st h

theorem aux_edge_weight_some (g : List Conn) (s d : Int) (c : Conn)
    (h : edge_weight g s d = some c) :
    c ∈ g ∧ c.source_id = s ∧ c.destination_id = d := by
  induction g with
  | nil => cases h
  | cons c0 rest ih =>
    unfold edge_weight at h
    split at h
    · cases h
      exact ⟨List.mem_cons_self _ _, by tauto, by tauto⟩
    · obtain ⟨h1, h2, h3⟩ := ih h
      exact ⟨List.mem_cons_of_mem _ h1, h2, h3⟩

theorem aux_edge_weight_mem_ne_none (g : List Conn) (s d : Int) (c : Conn)
    (hc : c ∈ g) (hs : c.source_id = s) (hd : c.destination_id = d) :
    edge_weight g s d ≠ none := by
  induction g with
  | nil => cases hc
  | cons c0 rest ih =>
    unfold edge_weight
    rcases List.mem_cons.mp hc with rfl | hc2
    · rw [if_pos ⟨hs, hd⟩]
      exact fun hcontra => by cases hcontra
    · split
      · exact fun hcontra => by cases hcontra
      · exact ih hc2

theorem aux_add_connection_graph_mono (strict : Bool) (st : LoadState)
    (n : FNode) (i : Nat) (r : LoadState)
    (h : add_connection strict st n i = .ok r) :
    ∀ x ∈ st.graph, x ∈ r.graph := by
  unfold add_connection err_if_strict at h
  repeat' split at h
  all_goals cases h
  all_goals intro x hx
  · exact hx
  · exact List.mem_append_left _ hx

theorem aux_add_connection_outcomes (strict : Bool) (st : LoadState)
    (n : FNode) (i : Nat) :
    (∃ r, add_connection strict st n i = .ok r) ∨
      (∃ e, add_connection strict st n i = .error (.err e)) := by
  cases hp : Connection.load_from_attributes n.attrs i with
  | error e => exact .inr ⟨.connection e, by simp [add_connection, hp]⟩
  | ok conn =>
    cases hew : edge_weight st.graph conn.source_id conn.destination_id with
    | some c0 =>
      cases strict with
      | true =>
        exact .inr ⟨.duplicateConnection conn.source_id conn.destination_id,
          by simp [add_connection, hp, hew, err_if_strict]⟩
      | false =>
        exact .inl ⟨st, by simp [add_connection, hp, hew, err_if_strict]⟩
    | none =>
      exact .inl ⟨{ st with graph := st.graph ++ [conn] },
        by simp [add_connection, hp, hew]⟩

theorem aux_connloop_noTrap (strict : Bool) (cs : List FNode) (idx : Nat)
    (st : LoadState) :
    (∃ r, load_connections_loop strict cs idx st = .ok r) ∨
      (∃ e, load_connections_loop strict cs idx st = .error (.err e)) := by
  induction cs generalizing idx st with
  | nil => exact .inl ⟨st, rfl⟩
  | cons c rest ih =>
    by_cases hn : c.name = "C"
    · rcases aux_add_connection_outcomes strict st c idx with ⟨st1, hok⟩ | ⟨e, herr⟩
      · rcases ih (idx + 1) st1 with ⟨r, hr⟩ | ⟨e, he⟩
        · exact .inl ⟨r, by simp [load_connections_loop, hn, hok, hr]⟩
        · exact .inr ⟨e, by simp [load_connections_loop, hn, hok, he]⟩
      · exact .inr ⟨e, by simp [load_connections_loop, hn, herr]⟩
    · rcases ih (idx + 1) st with ⟨r, hr⟩ | ⟨e, he⟩
      · exact .inl ⟨r, by simp [load_connections_loop, hn, hr]⟩
      · exact .inr ⟨e, by simp [load_connections_loop, hn, he]⟩

theorem aux_conn_parse_any_index (attrs : List DirectAttributeValue) (i : Nat)
    (c : Conn) (h : Connection.load_from_attributes attrs i = .ok c) (i2 : Nat) :
    ∃ c2, Connection.load_from_attributes attrs i2 = .ok c2 ∧
      c2.source_id = c.source_id ∧ c2.destination_id = c.destination_id := by
  unfold Connection.load_from_attributes at h ⊢
  repeat' split at h
  all_goals cases h
  all_goals subst_vars
  all_goals simp_all

theorem aux_connloop_true_fresh_mem (cs : List FNode) (idx : Nat)
    (st r : LoadState) (h : load_connections_loop true cs idx st = .ok r) :
    ∀ b ∈ cs, b.name = "C" → ∀ i cb,
      Connection.load_from_attributes b.attrs i = .ok cb →
      edge_weight st.graph cb.source_id cb.destination_id = none := by
  induction cs generalizing idx st with
  | nil =>
    intro b hb
    cases hb
  | cons c rest ih =>
    intro b hb hbC i cb hcb
    unfold load_connections_loop at h
    cases hstep : (if c.name = "C" then add_connection true st c idx else Except.ok st) with
    | error e =>
      simp only [hstep] at h
      cases h
    | ok st1 =>
      simp only [hstep] at h
      rcases List.mem_cons.mp hb with rfl | hb2
      · rw [if_pos hbC] at hstep
        obtain ⟨c2, hp2, hs2, hd2⟩ := aux_conn_parse_any_index b.attrs i cb hcb idx
        unfold add_connection at hstep
        simp only [hp2] at hstep
        cases hew : edge_weight st.graph c2.source_id c2.destination_id with
        | some c0 =>
          simp [hew, err_if_strict] at hstep
        | none =>
          rw [← hs2, ← hd2]
          exact hew
      · have hfresh1 := ih (idx + 1) st1 h b hb2 hbC i cb hcb
        have hmono : ∀ x ∈ st.graph, x ∈ st1.graph := by
          by_cases hc : c.name = "C"
          · rw [if_pos hc] at hstep
            exact aux_add_connection_graph_mono true st c idx st1 hstep
          · rw [if_neg hc] at hstep
            cases hstep
            exact fun x hx => hx
        cases hq : edge_weight st.graph cb.source_id cb.destination_id with
        | none => rfl
        | some c0 =>
          obtain ⟨hmem, hqs, hqd⟩ := aux_edge_weight_some st.graph _ _ c0 hq
          exact absurd hfresh1
            (aux_edge_weight_mem_ne_none st1.graph _ _ c0 (hmono c0 hmem) hqs hqd)

theorem aux_connloop_true_pair2 (u1 : List FNode) (a : FNode) (u2 : List FNode)
    (idx : Nat) (st r : LoadState)
    (h : load_connections_loop true (u1 ++ a :: u2) idx st = .ok r)
    (haC : a.name = "C") (b : FNode) (hb : b ∈ u2) (hbC : b.name = "C")
    (i1 i2 : Nat) (ca cb : Conn)
    (hpa : Connection.load_from_attributes a.attrs i1 = .ok ca)
    (hpb : Connection.load_from_attributes b.attrs i2 = .ok cb) :
    ¬ (ca.source_id = cb.source_id ∧ ca.destination_id = cb.destination_id) := by
  induction u1 generalizing idx st with
  | nil =>
    rw [List.nil_append] at h
    unfold load_connections_loop at h
    rw [if_pos haC] at h
    obtain ⟨c2, hp2, hs2, hd2⟩ := aux_conn_parse_any_index a.attrs i1 ca hpa idx
    cases hstep : add_connection true st a idx with
    | error e =>
      simp only [hstep] at h
      cases h
    | ok st1 =>
      simp only [hstep] at h
      unfold add_connection at hstep
      simp only [hp2] at hstep
      cases hew : edge_weight st.graph c2.source_id c2.destination_id with
      | some c0 =>
        simp [hew, err_if_strict] at hstep
      | none =>
        simp only [hew] at hstep
        cases hstep
        rintro ⟨hseq, hdeq⟩
        have hfresh := aux_connloop_true_fresh_mem u2 (idx + 1) _ r h b hb hbC i2 cb hpb
        have hc2mem : c2 ∈ st.graph ++ [c2] := List.mem_append_right _ (List.mem_singleton.mpr rfl)
        exact absurd hfresh
          (aux_edge_weight_mem_ne_none _ _ _ c2 hc2mem
            (hs2.trans hseq) (hd2.trans hdeq))
  | cons x t ih =>
    rw [List.cons_append] at h
    unfold load_connections_loop at h
    cases hstep : (if x.name = "C" then add_connection true st x idx else Except.ok st) with
    | error e =>
      simp only [hstep] at h
      cases h
    | ok st1 =>
      simp only [hstep] at h
      exact ih (idx + 1) st1 h

theorem aux_load_true_ok_inv (arena : List FNode) (doc : LoadState)
    (h : load_document true arena = .ok doc) :
    ∃ objs stA docs st1,
      find_toplevel arena "Objects" = some objs ∧
      load_objects_loop true objs.children emptyLoadState = .ok stA ∧
      find_toplevel arena "Documents" = some docs ∧
      load_documents_loop true docs.children stA = .ok st1 ∧
      load_connections true arena st1 = .ok doc := by
  unfold load_document at h
  cases hobj : load_objects true arena emptyLoadState with
  | error e =>
    rw [hobj] at h
    cases h
  | ok st1 =>
    rw [hobj] at h
    rw [aux_load_objects_start] at hobj
    cases hO : find_toplevel arena "Objects" with
    | none =>
      simp only [hO] at hobj
      simp [err_if_strict] at hobj
    | some objs =>
      simp only [hO] at hobj
      cases hloop : load_objects_loop true objs.children emptyLoadState with
      | error e =>
        simp only [hloop] at hobj
        cases hobj
      | ok stA =>
        simp only [hloop] at hobj
        cases hD : find_toplevel arena "Documents" with
        | none =>
          simp only [hD] at hobj
          simp [err_if_strict] at hobj
        | some docs =>
          simp only [hD] at hobj
          exact ⟨objs, stA, docs, st1, rfl, hloop, rfl, hobj, h⟩

theorem aux_strict_ok_no_dup_obj (arena : List FNode) (doc : LoadState)
    (h : load_document true arena = .ok doc) :
    ¬ hasDuplicateObjectId arena := by
  obtain ⟨objs, stA, docs, st1, hO, hloopA, hD, hloopD, hconn⟩ :=
    aux_load_true_ok_inv arena doc h
  rintro ⟨i, j, a, b, v, hij, hga, hgb, hfa, hfb⟩
  have hON : objectNodes arena = objs.children ++
      docs.children.filter (fun c => decide (c.name = "Document")) := by
    simp [objectNodes, objsChildren, docChildren, hO, hD]
  rw [hON] at hga hgb
  by_cases hjl : j < objs.children.length
  · have hil : i < objs.children.length := lt_trans hij hjl
    rw [List.get?_append hil] at hga
    rw [List.get?_append hjl] at hgb
    obtain ⟨ma, hpa, _⟩ := aux_objloop_true_mem objs.children emptyLoadState stA
      hloopA a (List.get?_mem hga)
    obtain ⟨mb, hpb, _⟩ := aux_objloop_true_mem objs.children emptyLoadState stA
      hloopA b (List.get?_mem hgb)
    have hva : ma.id = v := by
      have := aux_parse_id a ma hpa
      rw [hfa] at this
      injection this with this
      exact this.symm
    have hvb : mb.id = v := by
      have := aux_parse_id b mb hpb
      rw [hfb] at this
      injection this with this
      exact this.symm
    obtain ⟨u1, u2, hsplit, hbmem⟩ :=
      aux_get2_split objs.children i j a b hij hga hgb
    rw [hsplit] at hloopA
    exact aux_objloop_true_pair2 u1 a u2 emptyLoadState stA hloopA b hbmem
      ma mb hpa hpb (hva.trans hvb.symm)
  · by_cases hil : i < objs.children.length
    · rw [List.get?_append hil] at hga
      rw [List.get?_append_right (le_of_not_lt hjl)] at hgb
      have hbL2 : b ∈ docs.children.filter (fun c => decide (c.name = "Document")) :=
        List.get?_mem hgb
      have hbdocs : b ∈ docs.children := List.mem_of_mem_filter hbL2
      have hbname : b.name = "Document" := by
        have := (List.mem_filter.mp hbL2).2
        simpa using this
      obtain ⟨ma, hpa, hmema⟩ := aux_objloop_true_mem objs.children emptyLoadState
        stA hloopA a (List.get?_mem hga)
      obtain ⟨mb, hpb, _, _⟩ := aux_docsloop_true_mem docs.children stA st1
        hloopD b hbdocs hbname
      have hfreshb := aux_docsloop_true_fresh docs.children stA st1 hloopD
        b hbdocs hbname mb hpb
      have hva : ma.id = v := by
        have := aux_parse_id a ma hpa
        rw [hfa] at this
        injection this with this
        exact this.symm
      have hvb : mb.id = v := by
        have := aux_parse_id b mb hpb
        rw [hfb] at this
        injection this with this
        exact this.symm
      rw [hvb, ← hva] at hfreshb
      exact (aux_mem_alookup_ne_none hmema) hfreshb
    · rw [List.get?_append_right (le_of_not_lt hil)] at hga
      rw [List.get?_append_right (le_of_not_lt hjl)] at hgb
      have haL2 : a ∈ docs.children.filter (fun c => decide (c.name = "Document")) :=
        List.get?_mem hga
      have hbL2 : b ∈ docs.children.filter (fun c => decide (c.name = "Document")) :=
        List.get?_mem hgb
      have haname : a.name = "Document" := by
        have := (List.mem_filter.mp haL2).2
        simpa using this
      have hbname : b.name = "Document" := by
        have := (List.mem_filter.mp hbL2).2
        simpa using this
      obtain ⟨ma, hpa, _, _⟩ := aux_docsloop_true_mem docs.children stA st1
        hloopD a (List.mem_of_mem_filter haL2) haname
      obtain ⟨mb, hpb, _, _⟩ := aux_docsloop_true_mem docs.children stA st1
        hloopD b (List.mem_of_mem_filter hbL2) hbname
      have hva : ma.id = v := by
        have := aux_parse_id a ma hpa
        rw [hfa] at this
        injection this with this
        exact this.symm
      have hvb : mb.id = v := by
        have := aux_parse_id b mb hpb
        rw [hfb] at this
        injection this with this
        exact this.symm
      obtain ⟨t1, t2, hsplitF, hbmem2⟩ := aux_get2_split
        (docs.children.filter (fun c => decide (c.name = "Document")))
        (i - objs.children.length) (j - objs.children.length) a b
        (by omega) hga hgb
      obtain ⟨u1, u2, hsplitD, hfilter⟩ :=
        aux_filter_split (fun c => decide (c.name = "Document")) docs.children
        t1 t2 a hsplitF
      have hbu2 : b ∈ u2 := List.mem_of_mem_filter (hfilter ▸ hbmem2)
      rw [hsplitD] at hloopD
      exact aux_docsloop_true_pair2 u1 a u2 stA st1 hloopD haname b hbu2 hbname
        ma mb hpa hpb (hva.trans hvb.symm)

theorem aux_strict_ok_no_dup_conn (arena : List FNode) (doc : LoadState)
    (h : load_document true arena = .ok doc) :
    ¬ hasDuplicateConnection arena := by
  obtain ⟨objs, stA, docs, st1, hO, hloopA, hD, hloopD, hconn⟩ :=
    aux_load_true_ok_inv arena doc h
  rintro ⟨i, j, a, b, ca, cb, hij, hga, hgb, haC, hbC, hpa, hpb, hseq, hdeq⟩
  cases hC : find_toplevel arena "Connections" with
  | none =>
    simp [connsChildren, hC] at hga
  | some cn =>
    have hcs : connsChildren arena = cn.children := by simp [connsChildren, hC]
    rw [hcs] at hga hgb
    unfold load_connections at hconn
    simp only [hC] at hconn
    obtain ⟨u1, u2, hsplit, hbmem⟩ := aux_get2_split cn.children i j a b hij hga hgb
    rw [hsplit] at hconn
    exact aux_connloop_true_pair2 u1 a u2 0 st1 doc hconn haC b hbmem hbC
      i j ca cb hpa hpb ⟨hseq, hdeq⟩

theorem aux_load_true_noTrap (arena : List FNode)
    (hN : (visitedIds arena).Nodup) :
    (∃ doc, load_document true arena = .ok doc) ∨
      (∃ e, load_document true arena = .error (.err e)) := by
  have hobj_out : (∃ st1, load_objects true arena emptyLoadState = .ok st1) ∨
      (∃ e, load_objects true arena emptyLoadState = .error (.err e)) := by
    rw [aux_load_objects_start]
    cases hO : find_toplevel arena "Objects" with
    | none => exact .inr ⟨.nodeNotFound "Objects", by simp [err_if_strict]⟩
    | some objs =>
      have hEq1 : visitedIds arena = (objs.children.map FNode.id) ++
          ((docChildren arena).map FNode.id) := by
        simp [visitedIds, objectNodes, objsChildren, hO]
      have hL1 : (objs.children.map FNode.id).Nodup :=
        (List.nodup_append.mp (hEq1 ▸ hN)).1
      rcases aux_objloop_true_noTrap objs.children emptyLoadState hL1
          (fun n _ => rfl) with ⟨stA, hA⟩ | ⟨e, hA⟩
      · cases hD : find_toplevel arena "Documents" with
        | none =>
          exact .inr ⟨.nodeNotFound "Documents", by simp [hA, hD, err_if_strict]⟩
        | some docs =>
          have hEq2 : visitedIds arena = (objs.children.map FNode.id) ++
              ((docs.children.filter fun c => decide (c.name = "Document")).map
                FNode.id) := by
            simp [visitedIds, objectNodes, objsChildren, docChildren, hO, hD]
          have hv := List.nodup_append.mp (hEq2 ▸ hN)
          have hfreshD : ∀ d ∈ docs.children, d.name = "Document" →
              alookup stA.object_meta d.id = none := by
            intro d hd hname
            rw [aux_alookup_none_iff]
            intro hmem
            rcases aux_objloop_meta_keys true objs.children emptyLoadState stA
                hA d.id hmem with hin | hin
            · exact hv.2.2 hin (List.mem_map_of_mem FNode.id
                (List.mem_filter.mpr ⟨hd, by simp [hname]⟩))
            · simp [emptyLoadState] at hin
          rcases aux_docsloop_true_noTrap docs.children stA hv.2.1 hfreshD with
            ⟨st1, hr⟩ | ⟨e, he⟩
          · exact .inl ⟨st1, by simp [hA, hD, hr]⟩
          · exact .inr ⟨e, by simp [hA, hD, he]⟩
      · exact .inr ⟨e, by simp [hA]⟩
  rcases hobj_out with ⟨st1, h1⟩ | ⟨e, h1⟩
  · cases hC : find_toplevel arena "Connections" with
    | none =>
      exact .inr ⟨.nodeNotFound "Connections",
        by simp [load_document, h1, load_connections, hC, err_if_strict]⟩
    | some cn =>
      rcases aux_connloop_noTrap true cn.children 0 st1 with ⟨doc, hd⟩ | ⟨e, he⟩
      · exact .inl ⟨doc, by simp [load_document, h1, load_connections, hC, hd]⟩
      · exact .inr ⟨e, by simp [load_document, h1, load_connections, hC, he]⟩
  · exact .inr ⟨e, by simp [load_document, h1]⟩

/-! ## C1: duplicate object ids and duplicate connections -/

/-- C1 (amended).  For an arena with pairwise-distinct object-node ids:
(a) if it contains a duplicate object id or a duplicate connection, strict
loading returns an error; (b) any document produced by a successful
non-strict load keeps exactly the first-seen registrations and edges —
its object-id index equals the first-seen-wins fold `specRegs` and its
graph equals the first-seen-wins fold `specConns`, so the second
occurrence of a duplicate is absent.  (A non-strict load is not always
`Ok`: a `C` node that fails to decode aborts the load even in non-strict
mode, and a `Documents/Document` entry whose registration is skipped
panics on an internal `expect`.) -/
theorem c1_duplicate_handling (arena : List FNode)
    (hN : (visitedIds arena).Nodup) :
    ((hasDuplicateObjectId arena ∨ hasDuplicateConnection arena) →
      ∃ e, load_document true arena = .error (.err e)) ∧
    (∀ doc, load_document false arena = .ok doc →
      doc.object_ids = specRegs arena ∧ doc.graph = specConns arena) := by
  constructor
  · intro hdup
    rcases aux_load_true_noTrap arena hN with ⟨doc, hok⟩ | ⟨e, herr⟩
    · rcases hdup with hd | hd
      · exact absurd hd (aux_strict_ok_no_dup_obj arena doc hok)
      · exact absurd hd (aux_strict_ok_no_dup_conn arena doc hok)
    · exact ⟨e, herr⟩
  · exact fun doc h => aux_load_false_refines arena doc hN h

/-- C1 counterexample: `arenaDupBadConn` contains a duplicate object id
(both `Objects` children carry id 42), yet its non-strict load does not
return `Ok`: the attribute-less `C` node under `Connections` fails to
decode and that failure propagates with `?` regardless of the strict flag
(loader.rs line 361), refuting the claim that every arena with a duplicate
loads successfully in non-strict mode. -/
theorem c1_duplicate_handling_counterexample :
    load_document false arenaDupBadConn =
      .error (.err (.connection .missingAttribute)) := by
  decide

/-- C1 witness: the theorem applied at the concrete arena `arenaDup`, whose
duplicate object id is exhibited explicitly and whose non-strict load is
spelled out. -/
theorem c1_duplicate_handling_witness :
    (∃ e, load_document true arenaDup = .error (.err e)) ∧
    ((LoadState.mk [(42, 1)] [(1, ⟨42, [0x41], [0x44], [0x58]⟩)] []
        [⟨42, 0, .objectObject, 0⟩]).object_ids = specRegs arenaDup ∧
      (LoadState.mk [(42, 1)] [(1, ⟨42, [0x41], [0x44], [0x58]⟩)] []
        [⟨42, 0, .objectObject, 0⟩]).graph = specConns arenaDup) :=
  ⟨(c1_duplicate_handling arenaDup (by decide)).1
      (Or.inl ⟨0, 1, FNode.mk 1 "" (objAttrs 42) [], FNode.mk 2 "" (objAttrs 42) [],
        42, by decide, rfl, rfl, rfl, rfl⟩),
   (c1_duplicate_handling arenaDup (by decide)).2
      (LoadState.mk [(42, 1)] [(1, ⟨42, [0x41], [0x44], [0x58]⟩)] []
        [⟨42, 0, .objectObject, 0⟩]) (by decide)⟩

/-! ## C5: Document entries whose subclass is not Scene -/

/-- C5 (amended).  For a `Documents` child list starting with a `Document`
whose meta parses, whose ids are fresh, and whose subclass is not `Scene`:
in strict mode the documents loop fails with the value error
`unexpectedSubclass`; in non-strict mode the error is only logged but the
`return err_if_strict(...)` exits the whole loop — the offending `Document`
stays registered, its scene is not loaded, and the remaining siblings are
not processed (the result does not depend on `rest`).  Additionally, in
strict mode a full load of any arena whose `Documents/Document` entry has a
non-`Scene` subclass returns an error. -/
theorem c5_document_subclass :
    (∀ st (d : FNode) rest (m : ObjectMeta), d.name = "Document" →
      ObjectMeta.from_attributes d.attrs = .ok m →
      alookup st.object_ids m.id = none →
      alookup st.object_meta d.id = none →
      m.subclass_sym ≠ sceneBytes →
      load_documents_loop true (d :: rest) st = .error (.err .unexpectedSubclass) ∧
      load_documents_loop false (d :: rest) st =
        .ok { st with
              object_ids := (m.id, d.id) :: st.object_ids,
              object_meta := (d.id, m) :: st.object_meta }) ∧
    (∀ arena (d : FNode) (m : ObjectMeta), (visitedIds arena).Nodup →
      d ∈ docChildren arena →
      ObjectMeta.from_attributes d.attrs = .ok m →
      m.subclass_sym ≠ sceneBytes →
      ∃ e, load_document true arena = .error (.err e)) := by
  constructor
  · intro st d rest m hn hp hl1 hl2 hs
    have hadd : ∀ strict, add_object strict st d = .ok { st with
        object_ids := (m.id, d.id) :: st.object_ids,
        object_meta := (d.id, m) :: st.object_meta } := by
      intro strict
      simp [add_object, hp, hl1, hl2]
    have hm : alookup ({ st with
        object_ids := (m.id, d.id) :: st.object_ids,
        object_meta := (d.id, m) :: st.object_meta } : LoadState).object_meta d.id
        = some m := by
      simp [alookup]
    constructor
    · unfold load_documents_loop
      rw [if_pos hn]
      simp [hadd true, hm, hs, err_if_strict]
    · unfold load_documents_loop
      rw [if_pos hn]
      simp [hadd false, hm, hs, err_if_strict]
  · intro arena d m hN hd hp hs
    rcases aux_load_true_noTrap arena hN with ⟨doc, hok⟩ | ⟨e, herr⟩
    · exfalso
      obtain ⟨objs, stA, docs, st1, hO, hloopA, hD, hloopD, hconn⟩ :=
        aux_load_true_ok_inv arena doc hok
      have hd2 : d ∈ docs.children.filter (fun c => decide (c.name = "Document")) := by
        simpa [docChildren, hD] using hd
      have hname : d.name = "Document" := by
        simpa using (List.mem_filter.mp hd2).2
      obtain ⟨m2, hp2, _, hs2⟩ := aux_docsloop_true_mem docs.children stA st1
        hloopD d (List.mem_of_mem_filter hd2) hname
      rw [hp] at hp2
      cases hp2
      exact hs hs2
    · exact ⟨e, herr⟩

/-- C5 counterexample: in `arenaBadDoc` the first `Document` has subclass
`"X"` and the second is a well-formed scene `Document`; the non-strict load
succeeds but registers only the first one and loads no scene — the second
`Document` sibling was never processed, refuting the claim that remaining
siblings are still scanned. -/
theorem c5_document_subclass_counterexample :
    load_document false arenaBadDoc =
      .ok ⟨[(1, 10)], [(10, ⟨1, [0x41], [0x44], [0x58]⟩)], [], []⟩ := by
  decide

/-- C5 witness: the first conjunct of the theorem applied at the concrete
documents list of `arenaBadDoc` starting from the empty state. -/
theorem c5_document_subclass_witness :
    load_documents_loop true
        [FNode.mk 10 "Document" (objAttrs 1) [],
         FNode.mk 11 "Document" (sceneDocAttrs 2) [FNode.mk 12 "RootNode" [.I64 0] []]]
        emptyLoadState = .error (.err .unexpectedSubclass) ∧
    load_documents_loop false
        [FNode.mk 10 "Document" (objAttrs 1) [],
         FNode.mk 11 "Document" (sceneDocAttrs 2) [FNode.mk 12 "RootNode" [.I64 0] []]]
        emptyLoadState =
      .ok (LoadState.mk [(1, 10)] [(10, ⟨1, [0x41], [0x44], [0x58]⟩)] [] []) :=
  c5_document_subclass.1 emptyLoadState (FNode.mk 10 "Document" (objAttrs 1) [])
    [FNode.mk 11 "Document" (sceneDocAttrs 2) [FNode.mk 12 "RootNode" [.I64 0] []]]
    ⟨1, [0x41], [0x44], [0x58]⟩ rfl (by decide) rfl rfl (by decide)

end Fbxcel
